import Mathlib

/-!
Shallow embedding of the tank-game simulation core
(`shared/constants.js`, `server/src/sim/{prng,world,scan,actions,step}.js`,
`server/src/runtime/tankApi.js`), together with theorems settling the
specification claims about it.

Numbers are modelled as real numbers (`ℝ`); the JavaScript source works on
IEEE doubles and its numeric epsilons (`1e-9`) exist precisely to absorb the
difference, so the real-number model is the intended exact semantics.
JavaScript objects/Maps are modelled as insertion-ordered association lists,
matching the source's `Object.keys` / `Map` iteration order.  In-place
mutation becomes explicit state passing.
-/

namespace Tanks

noncomputable section

/-! ## Constants (`shared/constants.js`) -/

/-- Per-class stats row of `CONSTANTS.TANK_TYPES`. -/
structure Stats where
  hp : ℝ
  moveSpeed : ℝ
  turnRate : ℝ

/-- The class tag (`tankType` string in the source, `"light"` / `"heavy"`). -/
inductive TankType where
  | light
  | heavy
deriving DecidableEq

/-- The constants snapshot carried by a world (`CONSTANTS` shape). -/
structure Constants where
  ARENA_WIDTH : ℝ
  ARENA_HEIGHT : ℝ
  TICK_RATE : ℝ
  ACTION_DURATION : ℝ
  MATCH_TIME_LIMIT : ℝ
  SCAN_RANGE : ℝ
  TANK_RADIUS : ℝ
  tankStats : TankType → Stats
  PROJECTILE_SPEED : ℝ
  PROJECTILE_RADIUS : ℝ
  PROJECTILE_DAMAGE : ℝ

/-- The canonical `CONSTANTS` object from `shared/constants.js`. -/
def CONSTANTS : Constants where
  ARENA_WIDTH := 1200
  ARENA_HEIGHT := 800
  TICK_RATE := 60
  ACTION_DURATION := 1
  MATCH_TIME_LIMIT := 180
  SCAN_RANGE := 700
  TANK_RADIUS := 18
  tankStats := fun ty =>
    match ty with
    | .light => ⟨60, 160, 120⟩
    | .heavy => ⟨120, 60, 90⟩
  PROJECTILE_SPEED := 420
  PROJECTILE_RADIUS := 4
  PROJECTILE_DAMAGE := 20

/-! ## Angle arithmetic

JavaScript `%` on numbers is the truncated remainder (sign of the dividend).
`normalizeDeg` composes two of them exactly as `scan.js` / `actions.js` do. -/

/-- JavaScript truncation toward zero, as used by the `%` operator. -/
def jsTrunc (x : ℝ) : ℤ := if 0 ≤ x then ⌊x⌋ else ⌈x⌉

/-- JavaScript `x % y` on real numbers (truncated remainder). -/
def jsMod (x y : ℝ) : ℝ := x - y * jsTrunc (x / y)

/-- `normalizeDeg` from `scan.js` / `actions.js`: `((deg % 360) + 360) % 360`. -/
def normalizeDeg (deg : ℝ) : ℝ := jsMod (jsMod deg 360 + 360) 360

/-- The specification's "real-number mod" normalization into `[0, 360)`. -/
def specNormalize (x : ℝ) : ℝ := x - 360 * ⌊x / 360⌋

/-! ## Scan-arc geometry (`shared/sim/scan.js` = `server/src/sim/scan.js`) -/

/-- Pose of the scanning tank (`{ x, y, headingDeg }`). -/
structure Pose where
  x : ℝ
  y : ℝ
  headingDeg : ℝ

/-- Target position (`{ x, y }`). -/
structure Pt where
  x : ℝ
  y : ℝ

/-- JavaScript `Math.atan2(y, x)`: the angle of the point `(x, y)` in
`(-π, π]`, which is `Complex.arg` of `x + y·i` (and `0` at the origin). -/
def atan2 (y x : ℝ) : ℝ := Complex.arg ⟨x, y⟩

/-- `isInScanArc(scanner, target, aDeg, bDeg, range)` from `scan.js`. -/
def isInScanArc (scanner : Pose) (target : Pt) (aDeg bDeg range : ℝ) : Bool :=
  let dx := target.x - scanner.x
  let dy := target.y - scanner.y
  let distSq := dx * dx + dy * dy
  if distSq > range * range then false
  else if distSq = 0 then true
  else
    let absBearingDeg := normalizeDeg (atan2 dy dx * (180 / Real.pi))
    let relBearing := normalizeDeg (absBearingDeg - scanner.headingDeg)
    let a := normalizeDeg aDeg
    let b := normalizeDeg bDeg
    if a = b then true
    else
      let arcSpan := normalizeDeg (b - a)
      let offset := normalizeDeg (relBearing - a)
      decide (offset ≤ arcSpan)

/-- The scan-arc predicate exactly as the claim words it: range rejection
first, coincidence acceptance, full-circle acceptance when the normalized
endpoints agree, and otherwise the clockwise offset/span comparison, with
`relBearing` formed directly from the un-normalized bearing and
normalization as the floor-based real mod. -/
def scanClaimPredicate (scanner : Pose) (target : Pt) (aDeg bDeg range : ℝ) : Prop :=
  let dx := target.x - scanner.x
  let dy := target.y - scanner.y
  if dx * dx + dy * dy > range * range then False
  else if target.x = scanner.x ∧ target.y = scanner.y then True
  else if specNormalize aDeg = specNormalize bDeg then True
  else
    let relBearing := specNormalize (atan2 dy dx * (180 / Real.pi) - scanner.headingDeg)
    let a := specNormalize aDeg
    let b := specNormalize bDeg
    specNormalize (relBearing - a) ≤ specNormalize (b - a)

/-! ## PRNG (`server/src/sim/prng.js`, Mulberry32)

The closure state is the signed 32-bit integer `s`, modelled by its bit
pattern, a natural number below `2^32`.  All JavaScript coercions involved
(`| 0`, `Math.imul`, `>>>`, `^`, and the 32-bit wrap of the one plain `+`
that feeds a bitwise operator) act on bit patterns modulo `2^32`. -/

/-- `seed | 0`: the 32-bit pattern of an integer seed. -/
def createPRNG (seed : ℤ) : ℕ := (seed % 4294967296).toNat

/-- One draw of the Mulberry32 generator: next state and the returned value
in `[0, 1)`. -/
def mulberry32 (s0 : ℕ) : ℕ × ℝ :=
  let s := (s0 + 0x6d2b79f5) % 4294967296
  let t1 := Nat.xor s (s >>> 15) * (s ||| 1) % 4294967296
  let t2 := Nat.xor ((t1 + Nat.xor t1 (t1 >>> 7) * (t1 ||| 61) % 4294967296) % 4294967296) t1
  let out := Nat.xor t2 (t2 >>> 14)
  (s, (out : ℝ) / 4294967296)

/-! ## World state (`server/src/sim/world.js`) -/

/-- The `activeAction` descriptor stored on a tank by the action starters. -/
inductive ActionDesc where
  | turnLeft
  | turnRight
  | moveForward
  | moveBackward
  | scan (aDeg bDeg : ℝ)

/-- The action-type tag carried by completion descriptors (a string in the
source). -/
inductive ActionType where
  | turnLeft
  | turnRight
  | moveForward
  | moveBackward
  | scan
deriving DecidableEq

/-- The tag of a descriptor (`action.type` in the source). -/
def ActionDesc.tag : ActionDesc → ActionType
  | .turnLeft => .turnLeft
  | .turnRight => .turnRight
  | .moveForward => .moveForward
  | .moveBackward => .moveBackward
  | .scan _ _ => .scan

/-- `TankState` from `world.js`. -/
structure Tank where
  slot : String
  x : ℝ
  y : ℝ
  headingDeg : ℝ
  hp : ℝ
  tankType : TankType
  busyUntil : ℝ
  activeProjectileId : Option ℕ
  activeAction : Option ActionDesc
  lastScanResult : Option Bool

/-- `Projectile` from `world.js` (ids are modelled as naturals; the source
uses the strings `proj_<n>` produced by the same counter). -/
structure Projectile where
  id : ℕ
  owner : String
  x : ℝ
  y : ℝ
  vx : ℝ
  vy : ℝ

/-- `World` from `world.js`.  `rngState` is the Mulberry32 closure state;
`idCounter` is the module-global `_idCounter` consumed by `nextProjId()`
(reset to `0` by `createWorld`); `nextProjectileId` is the world field of the
same name, which the source never reads. -/
structure World where
  t : ℝ
  seed : ℤ
  constants : Constants
  rngState : ℕ
  tanks : List (String × Tank)
  projectiles : List Projectile
  idCounter : ℕ
  nextProjectileId : ℕ

/-- `world.tanks[slot]` (first entry with the key, as in a JS object). -/
def World.getTank? (w : World) (slot : String) : Option Tank :=
  (w.tanks.find? (fun p => p.1 == slot)).map (·.2)

/-- Writing a tank back under its slot key. -/
def World.setTank (w : World) (slot : String) (tank : Tank) : World :=
  { w with tanks := w.tanks.map (fun p => if p.1 == slot then (slot, tank) else p) }

/-- `createTank` from `world.js`. -/
def createTank (slot : String) (x y headingDeg : ℝ) (tankType : TankType)
    (c : Constants) : Tank where
  slot := slot
  x := x
  y := y
  headingDeg := headingDeg
  hp := (c.tankStats tankType).hp
  tankType := tankType
  busyUntil := 0
  activeProjectileId := none
  activeAction := none
  lastScanResult := none

/-- The `for (let i = 0; i < n; i++)` spawn loop of `createWorld`. -/
def spawnTanks (c : Constants) (angleOffset : ℝ) (n : ℕ) :
    ℕ → List (String × TankType) → List (String × Tank)
  | _, [] => []
  | i, pl :: rest =>
    let cx := c.ARENA_WIDTH / 2
    let cy := c.ARENA_HEIGHT / 2
    let radius := min cx cy * 0.55
    let angle := angleOffset + 2 * Real.pi * i / n
    let x := cx + Real.cos angle * radius
    let y := cy + Real.sin angle * radius
    let headingDeg := jsMod (angle * 180 / Real.pi + 180) 360
    (pl.1, createTank pl.1 x y headingDeg pl.2 c) :: spawnTanks c angleOffset n (i + 1) rest

/-- `createWorld(seed, constants, players)` from `world.js`. -/
def createWorld (seed : ℤ) (c : Constants) (players : List (String × TankType)) : World :=
  let players' := if players.isEmpty then [("p1", .light), ("p2", .light)] else players
  let s0 := createPRNG seed
  let draw := mulberry32 s0
  let angleOffset := draw.2 * Real.pi * 2
  { t := 0
    seed := seed
    constants := c
    rngState := draw.1
    tanks := spawnTanks c angleOffset players'.length 0 players'
    projectiles := []
    idCounter := 0
    nextProjectileId := 0 }

/-! ## Actions (`server/src/sim/actions.js`) -/

/-- The numeric tolerance used by `isIdle` and the completion check. -/
def EPSILON : ℝ := 1e-9

/-- `isIdle(tank, now)`: the tank can start a new timed action. -/
def isIdle (tank : Tank) (now : ℝ) : Bool := decide (now ≥ tank.busyUntil - EPSILON)

/-- `beginAction(tank, now, duration, action)`. -/
def beginAction (tank : Tank) (now duration : ℝ) (action : ActionDesc) : Tank :=
  { tank with busyUntil := now + duration, activeAction := some action }

/-- Duration of a turn action: `|degrees| / turnRate` when a `degrees`
argument was passed, the default `ACTION_DURATION` otherwise. -/
def turnDuration (c : Constants) (tank : Tank) (degrees : Option ℝ) : ℝ :=
  match degrees with
  | some d => |d| / (c.tankStats tank.tankType).turnRate
  | none => c.ACTION_DURATION

/-- `turnLeft(world, slot, degrees?)`.  `none` models the JavaScript crash on
a missing slot. -/
def turnLeft (w : World) (slot : String) (degrees : Option ℝ) : Option (Bool × World) :=
  match w.getTank? slot with
  | none => none
  | some tank =>
    if isIdle tank w.t then
      some (true, w.setTank slot
        (beginAction tank w.t (turnDuration w.constants tank degrees) .turnLeft))
    else some (false, w)

/-- `turnRight(world, slot, degrees?)`. -/
def turnRight (w : World) (slot : String) (degrees : Option ℝ) : Option (Bool × World) :=
  match w.getTank? slot with
  | none => none
  | some tank =>
    if isIdle tank w.t then
      some (true, w.setTank slot
        (beginAction tank w.t (turnDuration w.constants tank degrees) .turnRight))
    else some (false, w)

/-- `moveForward(world, slot)`. -/
def moveForward (w : World) (slot : String) : Option (Bool × World) :=
  match w.getTank? slot with
  | none => none
  | some tank =>
    if isIdle tank w.t then
      some (true, w.setTank slot
        (beginAction tank w.t w.constants.ACTION_DURATION .moveForward))
    else some (false, w)

/-- `moveBackward(world, slot)`. -/
def moveBackward (w : World) (slot : String) : Option (Bool × World) :=
  match w.getTank? slot with
  | none => none
  | some tank =>
    if isIdle tank w.t then
      some (true, w.setTank slot
        (beginAction tank w.t w.constants.ACTION_DURATION .moveBackward))
    else some (false, w)

/-- `scan(world, slot, aDeg, bDeg)`. -/
def scan (w : World) (slot : String) (aDeg bDeg : ℝ) : Option (Bool × World) :=
  match w.getTank? slot with
  | none => none
  | some tank =>
    if isIdle tank w.t then
      some (true, w.setTank slot
        (beginAction tank w.t w.constants.ACTION_DURATION (.scan aDeg bDeg)))
    else some (false, w)

/-- Degrees → radians conversion factor. -/
def DEG2RAD : ℝ := Real.pi / 180

/-- `shoot(world, slot)` (instant; one live projectile per tank). -/
def shoot (w : World) (slot : String) : Option (Bool × World) :=
  match w.getTank? slot with
  | none => none
  | some tank =>
    if tank.activeProjectileId ≠ none then some (false, w)
    else
      let rad := tank.headingDeg * DEG2RAD
      let spawnOffset := w.constants.TANK_RADIUS + w.constants.PROJECTILE_RADIUS + 1
      let proj : Projectile :=
        { id := w.idCounter
          owner := slot
          x := tank.x + Real.cos rad * spawnOffset
          y := tank.y + Real.sin rad * spawnOffset
          vx := Real.cos rad * w.constants.PROJECTILE_SPEED
          vy := Real.sin rad * w.constants.PROJECTILE_SPEED }
      let w1 := { w with projectiles := w.projectiles ++ [proj], idCounter := w.idCounter + 1 }
      some (true, w1.setTank slot { tank with activeProjectileId := some w.idCounter })

/-- `clampToArena(tank, constants)`: keep the tank inside the arena inset by
its radius (two sequential one-sided clamps per axis, as in the source). -/
def clampToArena (tank : Tank) (c : Constants) : Tank :=
  let r := c.TANK_RADIUS
  let x1 := if tank.x < r then r else tank.x
  let y1 := if tank.y < r then r else tank.y
  let x2 := if x1 > c.ARENA_WIDTH - r then c.ARENA_WIDTH - r else x1
  let y2 := if y1 > c.ARENA_HEIGHT - r then c.ARENA_HEIGHT - r else y1
  { tank with x := x2, y := y2 }

/-- The per-tick kinematic effect of one active action (the `switch` in
`applyActiveActions`). -/
def tickEffect (c : Constants) (tank : Tank) (act : ActionDesc) (dt : ℝ) : Tank :=
  let stats := c.tankStats tank.tankType
  match act with
  | .turnLeft =>
    { tank with headingDeg := normalizeDeg (tank.headingDeg - stats.turnRate * dt) }
  | .turnRight =>
    { tank with headingDeg := normalizeDeg (tank.headingDeg + stats.turnRate * dt) }
  | .moveForward =>
    let rad := tank.headingDeg * DEG2RAD
    clampToArena
      { tank with
        x := tank.x + Real.cos rad * stats.moveSpeed * dt
        y := tank.y + Real.sin rad * stats.moveSpeed * dt } c
  | .moveBackward =>
    let rad := tank.headingDeg * DEG2RAD
    clampToArena
      { tank with
        x := tank.x - Real.cos rad * stats.moveSpeed * dt
        y := tank.y - Real.sin rad * stats.moveSpeed * dt } c
  | .scan _ _ => tank

/-- The scan-resolution loop at completion: does any other alive tank fall
in the arc (first match wins, as the source breaks out of the loop)? -/
def scanFound (w : World) (slot : String) (tank : Tank) (aDeg bDeg : ℝ) : Bool :=
  w.tanks.any fun p =>
    p.1 != slot && decide (0 < p.2.hp) &&
      isInScanArc ⟨tank.x, tank.y, tank.headingDeg⟩ ⟨p.2.x, p.2.y⟩ aDeg bDeg
        w.constants.SCAN_RANGE

/-- A completed-action descriptor (`{ slot, actionType, scanResult? }`). -/
structure Completed where
  slot : String
  actionType : ActionType
  scanResult : Option Bool

/-- One iteration of the `applyActiveActions` loop for a single slot:
apply the per-tick effect, check expiration, resolve scans on completion. -/
def processSlot (dt : ℝ) (slot : String) (w : World) : Option Completed × World :=
  match w.getTank? slot with
  | none => (none, w)
  | some tank =>
    if tank.hp ≤ 0 then (none, w)
    else
      match tank.activeAction with
      | none => (none, w)
      | some action =>
        let tank1 := tickEffect w.constants tank action dt
        let w1 := w.setTank slot tank1
        if w.t + dt ≥ tank1.busyUntil - EPSILON then
          let tank2 :=
            match action with
            | .scan aDeg bDeg =>
              { tank1 with lastScanResult := some (scanFound w1 slot tank1 aDeg bDeg) }
            | _ => tank1
          let desc : Completed :=
            { slot := slot
              actionType := action.tag
              scanResult :=
                match action with
                | .scan _ _ => some (tank2.lastScanResult.getD false)
                | _ => none }
          (some desc, w1.setTank slot { tank2 with activeAction := none })
        else (none, w1)

/-- The body of `applyActiveActions`: iterate over the snapshot of slot keys,
threading the world, applying per-tick effects and collecting completions. -/
def applyGo (dt : ℝ) : List String → World → List Completed × World
  | [], w => ([], w)
  | slot :: rest, w =>
    let pr := processSlot dt slot w
    let out := applyGo dt rest pr.2
    (pr.1.toList ++ out.1, out.2)

/-- `applyActiveActions(world, dt)` from `actions.js`. -/
def applyActiveActions (w : World) (dt : ℝ) : List Completed × World :=
  applyGo dt (w.tanks.map (·.1)) w

/-! ## Step (`server/src/sim/step.js`) -/

/-- Events returned by one `step(world)` call. -/
inductive Event where
  | actionComplete (slot : String) (actionType : ActionType) (scanResult : Option Bool)
  | hit (projectileId : ℕ) (owner target : String) (damage : ℝ)
  | despawn (projectileId : ℕ) (owner : String) (reason : String)
  | matchEnd (winner : Option String) (reason : String)

/-- Phase 1: `proj.x += vx*dt; proj.y += vy*dt` for every projectile. -/
def moveProjectiles (w : World) (dt : ℝ) : World :=
  { w with
    projectiles :=
      w.projectiles.map fun p => { p with x := p.x + p.vx * dt, y := p.y + p.vy * dt } }

/-- The out-of-bounds test of phase 2. -/
def isOOB (c : Constants) (p : Projectile) : Bool :=
  decide (p.x < -c.PROJECTILE_RADIUS) || decide (p.x > c.ARENA_WIDTH + c.PROJECTILE_RADIUS) ||
    decide (p.y < -c.PROJECTILE_RADIUS) || decide (p.y > c.ARENA_HEIGHT + c.PROJECTILE_RADIUS)

/-- `clearProjectileFromOwner(world, proj)` from `step.js`. -/
def clearProjectileFromOwner (w : World) (p : Projectile) : World :=
  match w.getTank? p.owner with
  | none => w
  | some owner =>
    if owner.activeProjectileId = some p.id then
      w.setTank p.owner { owner with activeProjectileId := none }
    else w

/-- Removing a projectile from the world's map (`Map.delete` by id). -/
def removeProjectile (w : World) (pid : ℕ) : World :=
  { w with projectiles := w.projectiles.filter fun q => q.id ≠ pid }

/-- Phase 2 loop: despawn out-of-bounds projectiles, clearing the owner. -/
def despawnGo : List Projectile → World → List Event × World
  | [], w => ([], w)
  | p :: rest, w =>
    if isOOB w.constants p then
      let w1 := removeProjectile (clearProjectileFromOwner w p) p.id
      let out := despawnGo rest w1
      (.despawn p.id p.owner "oob" :: out.1, out.2)
    else despawnGo rest w

/-- Phase 2 of `step`. -/
def despawnPhase (w : World) : List Event × World := despawnGo w.projectiles w

/-- The inner loop of phase 3: the first tank that is not the owner, is
alive, and is within `hitRange` of the projectile. -/
def findHitTarget (w : World) (hitRangeSq : ℝ) (p : Projectile) : Option (String × Tank) :=
  w.tanks.find? fun q =>
    q.1 != p.owner && decide (0 < q.2.hp) &&
      decide ((p.x - q.2.x) * (p.x - q.2.x) + (p.y - q.2.y) * (p.y - q.2.y) ≤ hitRangeSq)

/-- Phase 3 loop: apply damage (floored at zero), emit the hit event, clear
the owner and consume the projectile on its first hit. -/
def hitGo (hitRangeSq damage : ℝ) : List Projectile → World → List Event × World
  | [], w => ([], w)
  | p :: rest, w =>
    match findHitTarget w hitRangeSq p with
    | none => hitGo hitRangeSq damage rest w
    | some (targetSlot, target) =>
      let newHp := if target.hp - damage < 0 then 0 else target.hp - damage
      let w1 := w.setTank targetSlot { target with hp := newHp }
      let w2 := removeProjectile (clearProjectileFromOwner w1 p) p.id
      let out := hitGo hitRangeSq damage rest w2
      (.hit p.id p.owner targetSlot damage :: out.1, out.2)

/-- Phase 3 of `step`. -/
def hitPhase (w : World) : List Event × World :=
  let hitRange := w.constants.PROJECTILE_RADIUS + w.constants.TANK_RADIUS
  hitGo (hitRange * hitRange) w.constants.PROJECTILE_DAMAGE w.projectiles w

/-- The slots whose tanks are alive, in entry order. -/
def aliveSlots (w : World) : List String :=
  (w.tanks.filter fun p => decide (0 < p.2.hp)).map (·.1)

/-- `world.tanks[slot].hp` with the lookup used by the timeout comparison. -/
def hpOf (w : World) (slot : String) : ℝ := ((w.getTank? slot).map Tank.hp).getD 0

/-- Phase 5: the match-end check, evaluated after time has advanced. -/
def matchEndEvents (w : World) : List Event :=
  let alive := aliveSlots w
  if alive.length ≤ 1 then
    match alive with
    | [a] => [.matchEnd (some a) "hp"]
    | _ => [.matchEnd none "double_ko"]
  else if w.t ≥ w.constants.MATCH_TIME_LIMIT then
    let sorted := alive.mergeSort fun a b => decide (hpOf w b ≤ hpOf w a)
    match sorted with
    | a :: b :: _ =>
      if hpOf w a > hpOf w b then [.matchEnd (some a) "timeout"]
      else [.matchEnd none "timeout"]
    | _ => []
  else []

/-- `step(world)` from `step.js`: one atomic tick. -/
def step (w : World) : List Event × World :=
  let dt := 1 / w.constants.TICK_RATE
  let applied := applyActiveActions w dt
  let evs0 := applied.1.map fun ca => Event.actionComplete ca.slot ca.actionType ca.scanResult
  let w2 := moveProjectiles applied.2 dt
  let despawned := despawnPhase w2
  let hits := hitPhase despawned.2
  let w5 := { hits.2 with t := hits.2.t + dt }
  (evs0 ++ despawned.1 ++ hits.1 ++ matchEndEvents w5, w5)

/-- Iterated stepping: the world after `n` ticks (events discarded). -/
def stepN (w : World) : ℕ → World
  | 0 => w
  | n + 1 => (step (stepN w n)).2

/-! ## Tank API (`server/src/runtime/tankApi.js`) and the watchdog hook

`timedAction(name, args, isScan)` starts the sim action; on acceptance it
stores the pending resolve callback.  The outcome record additionally
tracks whether the call invoked the runner-registered `_onActionStart`
watchdog hook.  The server `timedAction` body contains no such invocation;
the browser-side `localTankApi.js` (documented as "identical logic")
invokes the registered hook right after acceptance. -/

/-- A timed Tank API operation and its arguments. -/
inductive TimedOp where
  | turnLeft (degrees : Option ℝ)
  | turnRight (degrees : Option ℝ)
  | moveForward
  | moveBackward
  | scan (aDeg bDeg : ℝ)

/-- Dispatch of `actions[name](world, slot, ...args)`. -/
def runStarter (op : TimedOp) (w : World) (slot : String) : Option (Bool × World) :=
  match op with
  | .turnLeft d => turnLeft w slot d
  | .turnRight d => turnRight w slot d
  | .moveForward => moveForward w slot
  | .moveBackward => moveBackward w slot
  | .scan a b => scan w slot a b

/-- Observable outcome of one `timedAction` call. -/
structure TimedCallOutcome where
  accepted : Bool
  world : World
  pendingSet : Bool
  actionStartTriggered : Bool

/-- `timedAction` of the server `tankApi.js`: start the starter; when busy,
resolve immediately; when accepted, store `_pendingResolve`.  No statement of
the function invokes the `_onActionStart` hook. -/
def serverTimedAction (w : World) (slot : String) (op : TimedOp) : Option TimedCallOutcome :=
  (runStarter op w slot).map fun r =>
    if r.1 then
      { accepted := true, world := r.2, pendingSet := true, actionStartTriggered := false }
    else
      { accepted := false, world := r.2, pendingSet := false, actionStartTriggered := false }

/-- `timedAction` of the browser `localTankApi.js`: identical, except that
after acceptance it runs `if (_onActionStart) _onActionStart()`. -/
def localTimedAction (hookRegistered : Bool) (w : World) (slot : String) (op : TimedOp) :
    Option TimedCallOutcome :=
  (runStarter op w slot).map fun r =>
    if r.1 then
      { accepted := true, world := r.2, pendingSet := true,
        actionStartTriggered := hookRegistered }
    else
      { accepted := false, world := r.2, pendingSet := false, actionStartTriggered := false }

/-! ## Association-list lemmas for the tank map -/

/-- The slot keys of a world, in entry order. -/
def World.keys (w : World) : List String := w.tanks.map Prod.fst

/-! ## Per-tank characterization of `applyActiveActions` -/

/-- Agreement on every stored field except `lastScanResult` (which scan
completion rewrites using the whole world). -/
def Tank.sameExceptScanResult (a b : Tank) : Prop :=
  a.slot = b.slot ∧ a.x = b.x ∧ a.y = b.y ∧ a.headingDeg = b.headingDeg ∧ a.hp = b.hp ∧
    a.tankType = b.tankType ∧ a.busyUntil = b.busyUntil ∧
    a.activeProjectileId = b.activeProjectileId ∧ a.activeAction = b.activeAction

/-- The tank-local part of one `applyActiveActions` iteration: the updated
tank (up to `lastScanResult`) and whether the action completed.  This is a
function of the processed tank, the clock and the constants alone. -/
def processOwn (c : Constants) (tnow dt : ℝ) (tank : Tank) : Tank × Bool :=
  if tank.hp ≤ 0 then (tank, false)
  else
    match tank.activeAction with
    | none => (tank, false)
    | some act =>
      let tank1 := tickEffect c tank act dt
      if tnow + dt ≥ tank1.busyUntil - EPSILON then
        ({ tank1 with activeAction := none }, true)
      else (tank1, false)

/-! ## Frame lemmas for the projectile phases -/

/-- How one tank may change across the despawn/hit phases: only
`activeProjectileId` can be cleared and only `hp` can drop (by combat
damage, when the damage constant is non-negative). -/
def combatTankRel (damage : ℝ) (t t' : Tank) : Prop :=
  t'.slot = t.slot ∧ t'.x = t.x ∧ t'.y = t.y ∧ t'.headingDeg = t.headingDeg ∧
    t'.tankType = t.tankType ∧ t'.busyUntil = t.busyUntil ∧ t'.activeAction = t.activeAction ∧
    t'.lastScanResult = t.lastScanResult ∧
    (t'.activeProjectileId = t.activeProjectileId ∨ t'.activeProjectileId = none) ∧
    (0 ≤ damage → t'.hp ≤ t.hp)

/-- World-level evolution of the tank map across combat phases. -/
def worldCombatRel (damage : ℝ) (w w' : World) : Prop :=
  ∀ s t, w.getTank? s = some t → ∃ t', w'.getTank? s = some t' ∧ combatTankRel damage t t'

/-! ## Step decomposition -/

/-- `dt` as computed at the top of `step`. -/
def stepDt (w : World) : ℝ := 1 / w.constants.TICK_RATE

/-- Phase 0 of `step`. -/
def stepApplied (w : World) : List Completed × World := applyActiveActions w (stepDt w)

/-- State after phase 1 of `step`. -/
def stepMoved (w : World) : World := moveProjectiles (stepApplied w).2 (stepDt w)

/-- Phase 2 of `step`. -/
def stepDespawned (w : World) : List Event × World := despawnPhase (stepMoved w)

/-- Phase 3 of `step`. -/
def stepHits (w : World) : List Event × World := hitPhase (stepDespawned w).2

/-- State after phase 4 of `step` (time advance). -/
def stepFinal (w : World) : World :=
  { (stepHits w).2 with t := (stepHits w).2.t + stepDt w }

/-! ## Tracking one live projectile and its owner through a tick -/

/-- The one-shot channel state for owner `s` and projectile id `pid`: either
the projectile is live and the owner points at it, or it has been removed and
the owner's `activeProjectileId` was cleared. -/
def pidTracked (pid : ℕ) (s : String) (w : World) : Prop :=
  (∃ t, w.getTank? s = some t ∧ t.activeProjectileId = some pid ∧
      pid ∈ w.projectiles.map (·.id)) ∨
    (∃ t, w.getTank? s = some t ∧ t.activeProjectileId = none ∧
      pid ∉ w.projectiles.map (·.id))

/-- The heading after `j` per-tick applications of one action. -/
def headingIter (c : Constants) (ty : TankType) (act : ActionDesc) (dt h0 : ℝ) : ℕ → ℝ
  | 0 => h0
  | j + 1 =>
    match act with
    | .turnLeft => normalizeDeg (headingIter c ty act dt h0 j - (c.tankStats ty).turnRate * dt)
    | .turnRight => normalizeDeg (headingIter c ty act dt h0 j + (c.tankStats ty).turnRate * dt)
    | _ => headingIter c ty act dt h0 j

/-! ## Concrete example worlds used by witnesses -/

/-- An idle, alive light tank at `(100, 100)` facing east. -/
def tank0 : Tank :=
  { slot := "p1", x := 100, y := 100, headingDeg := 0, hp := 60, tankType := .light,
    busyUntil := 0, activeProjectileId := none, activeAction := none, lastScanResult := none }

/-- A one-tank world at `t = 0` with canonical constants. -/
def w0 : World :=
  { t := 0, seed := 1, constants := CONSTANTS, rngState := 0, tanks := [("p1", tank0)],
    projectiles := [], idCounter := 0, nextProjectileId := 0 }

/-- A tank that already owns the live projectile `0`. -/
def tankShot : Tank :=
  { slot := "p1", x := 100, y := 100, headingDeg := 0, hp := 60, tankType := .light,
    busyUntil := 0, activeProjectileId := some 0, activeAction := none, lastScanResult := none }

/-- A world where `p1` owns projectile `0`, already far out of bounds. -/
def wShot : World :=
  { t := 0, seed := 1, constants := CONSTANTS, rngState := 0, tanks := [("p1", tankShot)],
    projectiles := [{ id := 0, owner := "p1", x := 5000, y := 100, vx := 0, vy := 0 }],
    idCounter := 1, nextProjectileId := 0 }

/-- A tank one default-aligned turn into its busy window
(`busyUntil = t + dt`, `activeAction = turnLeft`). -/
def tankC2 : Tank :=
  { slot := "p1", x := 100, y := 100, headingDeg := 0, hp := 60, tankType := .light,
    busyUntil := 1 / 60, activeProjectileId := none, activeAction := some .turnLeft,
    lastScanResult := none }

/-- A one-tank world at `t = 0` whose tank just accepted a one-tick turn. -/
def wC2 : World :=
  { t := 0, seed := 1, constants := CONSTANTS, rngState := 0, tanks := [("p1", tankC2)],
    projectiles := [], idCounter := 0, nextProjectileId := 0 }

/-! ## Claim C4 — action starters accept iff idle -/

/-- The full behavioral contract of the five timed-action starters for the
tank of one slot. -/
def startersContract (w : World) (s : String) (tank : Tank) : Prop :=
  (isIdle tank w.t = true ↔ w.t ≥ tank.busyUntil - EPSILON) ∧
    (∀ d : ℝ, turnLeft w s (some d) = some (
      if isIdle tank w.t then
        (true, w.setTank s { tank with
          busyUntil := w.t + |d| / (w.constants.tankStats tank.tankType).turnRate,
          activeAction := some .turnLeft })
      else (false, w))) ∧
    (turnLeft w s none = some (
      if isIdle tank w.t then
        (true, w.setTank s { tank with
          busyUntil := w.t + w.constants.ACTION_DURATION,
          activeAction := some .turnLeft })
      else (false, w))) ∧
    (∀ d : ℝ, turnRight w s (some d) = some (
      if isIdle tank w.t then
        (true, w.setTank s { tank with
          busyUntil := w.t + |d| / (w.constants.tankStats tank.tankType).turnRate,
          activeAction := some .turnRight })
      else (false, w))) ∧
    (turnRight w s none = some (
      if isIdle tank w.t then
        (true, w.setTank s { tank with
          busyUntil := w.t + w.constants.ACTION_DURATION,
          activeAction := some .turnRight })
      else (false, w))) ∧
    (moveForward w s = some (
      if isIdle tank w.t then
        (true, w.setTank s { tank with
          busyUntil := w.t + w.constants.ACTION_DURATION,
          activeAction := some .moveForward })
      else (false, w))) ∧
    (moveBackward w s = some (
      if isIdle tank w.t then
        (true, w.setTank s { tank with
          busyUntil := w.t + w.constants.ACTION_DURATION,
          activeAction := some .moveBackward })
      else (false, w))) ∧
    (∀ a b : ℝ, scan w s a b = some (
      if isIdle tank w.t then
        (true, w.setTank s { tank with
          busyUntil := w.t + w.constants.ACTION_DURATION,
          activeAction := some (.scan a b) })
      else (false, w)))

/-! ## Claim C10 — shoot has no aliveness or idleness precondition -/

/-- A dead tank in the middle of a busy window, with no live projectile. -/
def tankDeadBusy : Tank :=
  { slot := "p1", x := 100, y := 100, headingDeg := 0, hp := 0, tankType := .light,
    busyUntil := 50, activeProjectileId := none, activeAction := some .moveForward,
    lastScanResult := none }

/-- A world holding only the dead, busy tank, at `t = 0`. -/
def wDeadBusy : World :=
  { t := 0, seed := 1, constants := CONSTANTS, rngState := 0,
    tanks := [("p1", tankDeadBusy)], projectiles := [], idCounter := 0, nextProjectileId := 0 }

/-! ## Claim C1 — canonical tick order -/

/-- What claim C1 asserts about a projectile that is out of bounds after the
motion phase of a tick: it despawns with an `oob` event, never also scores a
hit that tick, and its owner's `activeProjectileId` no longer names it. -/
def oobOutcome (w : World) (p : Projectile) : Prop :=
  Event.despawn p.id p.owner "oob" ∈ (step w).1 ∧
    (∀ o tg dm, Event.hit p.id o tg dm ∉ (step w).1) ∧
    (w.keys.Nodup → ∀ t', (step w).2.getTank? p.owner = some t' →
      t'.activeProjectileId ≠ some p.id)

/-- The out-of-bounds projectile of `wShot` after the motion phase. -/
def pMoved : Projectile :=
  { id := 0, owner := "p1", x := 5000 + 0 * stepDt wShot, y := 100 + 0 * stepDt wShot,
    vx := 0, vy := 0 }

/-- The outcome of `turnLeft()` on the idle example tank via the server API. -/
def c7Outcome : TimedCallOutcome :=
  { accepted := true
    world := w0.setTank "p1" { tank0 with busyUntil := 0 + 1, activeAction := some .turnLeft }
    pendingSet := true
    actionStartTriggered := false }

/-! ## Claim C2 — the action duration law -/

/-- The slot's action completes on relative tick `m` (events of the `m`-th
call to `step` are those of `step (stepN w (m-1))`). -/
def completesOn (w : World) (s : String) (m : ℕ) : Prop :=
  ∃ ty sr, Event.actionComplete s ty sr ∈ (step (stepN w (m - 1))).1

/-- `turnLeft(0)`/`turnRight(0)` on an idle alive tank: both are accepted,
and one completing tick later the tank has still rotated by a full
`turnRate·dt` (not zero). -/
def zeroTurn (w : World) (s : String) (tank : Tank) : Prop :=
  turnLeft w s (some 0) = some (true, w.setTank s
    (beginAction tank w.t (turnDuration w.constants tank (some 0)) .turnLeft)) ∧
  turnRight w s (some 0) = some (true, w.setTank s
    (beginAction tank w.t (turnDuration w.constants tank (some 0)) .turnRight)) ∧
  (∃ t', (step (w.setTank s (beginAction tank w.t
      (turnDuration w.constants tank (some 0)) .turnLeft))).2.getTank? s = some t' ∧
    t'.activeAction = none ∧
    t'.headingDeg = normalizeDeg (tank.headingDeg -
      (w.constants.tankStats tank.tankType).turnRate * stepDt w)) ∧
  (∃ t', (step (w.setTank s (beginAction tank w.t
      (turnDuration w.constants tank (some 0)) .turnRight))).2.getTank? s = some t' ∧
    t'.activeAction = none ∧
    t'.headingDeg = normalizeDeg (tank.headingDeg +
      (w.constants.tankStats tank.tankType).turnRate * stepDt w))

/-- Conclusion of the quantization law for an accepted turn whose
post-acceptance world is `w'`: on the first tick `k` whose completion
condition holds, the tank has rotated by exactly `k·turnRate·dt` in the
direction `sign`. -/
def turnQuantConclusion (w w' : World) (s : String) (tank : Tank) (d sign : ℝ) : Prop :=
  ∀ k : ℕ, 1 ≤ k →
    |d| / (w.constants.tankStats tank.tankType).turnRate - EPSILON ≤ k * stepDt w →
    (∀ i : ℕ, 1 ≤ i → i < k →
      ¬(|d| / (w.constants.tankStats tank.tankType).turnRate - EPSILON ≤ i * stepDt w)) →
    (∀ j : ℕ, j < k → ∀ tj, (stepN w' j).getTank? s = some tj → 0 < tj.hp) →
    ∃ tk, (stepN w' k).getTank? s = some tk ∧ tk.activeAction = none ∧
      tk.headingDeg = normalizeDeg (tank.headingDeg +
        sign * (k * ((w.constants.tankStats tank.tankType).turnRate * stepDt w)))

/-! ## Reachable worlds (the orchestration layer of `matchManager`) -/

/-- Worlds produced by `createWorld` under the canonical constants followed
by any interleaving of ticks, accepted or rejected action starts, and
shots.  The create case carries the key-uniqueness of the player list,
which the server guarantees (slots are `p1`/`p2`). -/
inductive Reachable : World → Prop
  | create (seed : ℤ) (players : List (String × TankType))
      (hnd : ((if players.isEmpty then [("p1", TankType.light), ("p2", TankType.light)]
        else players).map Prod.fst).Nodup) :
      Reachable (createWorld seed CONSTANTS players)
  | tick (w : World) : Reachable w → Reachable (step w).2
  | startTurnLeft (w : World) (s : String) (d : Option ℝ) (b : Bool) (w' : World) :
      Reachable w → turnLeft w s d = some (b, w') → Reachable w'
  | startTurnRight (w : World) (s : String) (d : Option ℝ) (b : Bool) (w' : World) :
      Reachable w → turnRight w s d = some (b, w') → Reachable w'
  | startMoveForward (w : World) (s : String) (b : Bool) (w' : World) :
      Reachable w → moveForward w s = some (b, w') → Reachable w'
  | startMoveBackward (w : World) (s : String) (b : Bool) (w' : World) :
      Reachable w → moveBackward w s = some (b, w') → Reachable w'
  | startScan (w : World) (s : String) (aDeg bDeg : ℝ) (b : Bool) (w' : World) :
      Reachable w → scan w s aDeg bDeg = some (b, w') → Reachable w'
  | fire (w : World) (s : String) (b : Bool) (w' : World) :
      Reachable w → shoot w s = some (b, w') → Reachable w'

/-- The amended invariant I1: for every alive tank, an active action keeps
`t ≤ busyUntil`, and an idle tank has `busyUntil ≤ t + ε` (the fresh-world
state `busyUntil = t = 0` is idle yet satisfies `busyUntil ≥ t`, so the
spec's literal iff fails there). -/
def busyConsistent (w : World) : Prop :=
  ∀ s tank, w.getTank? s = some tank → 0 < tank.hp →
    (tank.activeAction ≠ none → w.t ≤ tank.busyUntil) ∧
    (tank.activeAction = none → tank.busyUntil ≤ w.t + EPSILON)

/-- The spec's literal invariant I1. -/
def claimedI1 (w : World) : Prop :=
  ∀ s tank, w.getTank? s = some tank → 0 < tank.hp →
    (tank.busyUntil ≥ w.t ↔ tank.activeAction ≠ none)

/-- Arena containment of one tank. -/
def inBounds (c : Constants) (tank : Tank) : Prop :=
  c.TANK_RADIUS ≤ tank.x ∧ tank.x ≤ c.ARENA_WIDTH - c.TANK_RADIUS ∧
    c.TANK_RADIUS ≤ tank.y ∧ tank.y ≤ c.ARENA_HEIGHT - c.TANK_RADIUS

/-- Invariant I4 / property P3: all alive tanks inside the inset arena. -/
def tanksInArena (w : World) : Prop :=
  ∀ s tank, w.getTank? s = some tank → 0 < tank.hp → inBounds w.constants tank

lemma specNormalize_eq_fract (x : ℝ) : specNormalize x = 360 * Int.fract (x / 360) := by
  unfold specNormalize Int.fract
  field_simp

lemma specNormalize_nonneg (x : ℝ) : 0 ≤ specNormalize x := by
  rw [specNormalize_eq_fract]
  have := Int.fract_nonneg (x / 360)
  linarith

lemma specNormalize_lt (x : ℝ) : specNormalize x < 360 := by
  rw [specNormalize_eq_fract]
  have := Int.fract_lt_one (x / 360)
  linarith

lemma jsMod_of_nonneg (x : ℝ) (h : 0 ≤ x) : jsMod x 360 = specNormalize x := by
  unfold jsMod jsTrunc specNormalize
  rw [if_pos (div_nonneg h (by norm_num))]

lemma jsMod_of_neg (x : ℝ) (h : x < 0) : jsMod x 360 = x - 360 * ⌈x / 360⌉ := by
  unfold jsMod jsTrunc
  have : ¬ (0 : ℝ) ≤ x / 360 := by
    intro hc
    nlinarith
  rw [if_neg this]

lemma specNormalize_mul360 (z : ℝ) : specNormalize (360 * z) = 360 * Int.fract z := by
  unfold specNormalize Int.fract
  rw [show (360 : ℝ) * z / 360 = z by ring]
  ring

/-- The two truncated mods of the source compose to the floor-based mod of the
specification. -/
lemma normalizeDeg_eq_specNormalize (x : ℝ) : normalizeDeg x = specNormalize x := by
  unfold normalizeDeg
  rcases le_or_lt 0 x with hx | hx
  · rw [jsMod_of_nonneg x hx,
      jsMod_of_nonneg _ (by linarith [specNormalize_nonneg x]),
      specNormalize_eq_fract x,
      show (360 : ℝ) * Int.fract (x / 360) + 360 = 360 * (Int.fract (x / 360) + 1) by ring,
      specNormalize_mul360, Int.fract_add_one, Int.fract_fract]
  · rw [jsMod_of_neg x hx]
    have harg : x - 360 * ⌈x / 360⌉ + 360 = 360 * (x / 360 + ((1 - ⌈x / 360⌉ : ℤ) : ℝ)) := by
      push_cast
      field_simp
      ring
    have hnn : (0 : ℝ) ≤ x - 360 * ⌈x / 360⌉ + 360 := by
      have := Int.ceil_lt_add_one (x / 360)
      have hx360 : x / 360 * 360 = x := by field_simp
      nlinarith
    rw [jsMod_of_nonneg _ hnn, harg, specNormalize_mul360, Int.fract_add_int,
      specNormalize_eq_fract]

/-- Normalization is invariant under shifting by whole turns. -/
lemma specNormalize_add_int_mul (z : ℝ) (n : ℤ) :
    specNormalize (z + 360 * n) = specNormalize z := by
  unfold specNormalize
  have h : (z + 360 * n) / 360 = z / 360 + n := by
    field_simp
    ring
  rw [h, Int.floor_add_int]
  push_cast
  ring

/-- Adding an already-normalized angle behaves like adding the raw angle:
normalization is a congruence for `+`. -/
lemma specNormalize_add_left (x y : ℝ) :
    specNormalize (specNormalize x + y) = specNormalize (x + y) := by
  have h : specNormalize x + y = (x + y) + 360 * ((-⌊x / 360⌋ : ℤ) : ℝ) := by
    unfold specNormalize
    push_cast
    ring
  rw [h, specNormalize_add_int_mul]

/-- Evaluation helper: if `x - 360k` lands in `[0, 360)` then that is the
normalized value. -/
lemma specNormalize_eval (x : ℝ) (k : ℤ) (h0 : 0 ≤ x - 360 * k) (h1 : x - 360 * k < 360) :
    specNormalize x = x - 360 * k := by
  have hk : ⌊x / 360⌋ = k := by
    rw [Int.floor_eq_iff]
    constructor
    · rw [le_div_iff (by norm_num : (0:ℝ) < 360)]
      linarith
    · rw [div_lt_iff (by norm_num : (0:ℝ) < 360)]
      push_cast
      linarith
  unfold specNormalize
  rw [hk]

lemma normalizeDeg_eval (x : ℝ) (k : ℤ) (h0 : 0 ≤ x - 360 * k) (h1 : x - 360 * k < 360) :
    normalizeDeg x = x - 360 * k := by
  rw [normalizeDeg_eq_specNormalize]
  exact specNormalize_eval x k h0 h1

lemma setTank_tanks_eq (w : World) (s : String) (t : Tank) :
    (w.setTank s t).tanks = w.tanks.map (fun p => if p.1 == s then (s, t) else p) := rfl

lemma keys_setTank (w : World) (s : String) (t : Tank) :
    (w.setTank s t).keys = w.keys := by
  unfold World.keys
  rw [setTank_tanks_eq, List.map_map]
  apply List.map_congr_left
  intro p _
  by_cases h : p.1 == s
  · simp only [Function.comp_apply, if_pos h]
    exact (eq_of_beq h).symm
  · simp only [Function.comp_apply, if_neg h]

lemma getTank?_setTank_self (w : World) (s : String) (t : Tank) :
    (w.setTank s t).getTank? s = (w.getTank? s).map fun _ => t := by
  unfold World.getTank?
  rw [setTank_tanks_eq, List.find?_map]
  have hpred : ((fun (p : String × Tank) => p.1 == s) ∘ fun p => if p.1 == s then (s, t) else p)
      = fun (p : String × Tank) => p.1 == s := by
    funext p
    by_cases h : (p.1 == s) = true
    · simp only [Function.comp_apply, if_pos h, h]
      simp
    · simp only [Function.comp_apply, if_neg h]
  rw [hpred]
  rcases hfind : w.tanks.find? (fun (p : String × Tank) => p.1 == s) with _ | q
  · rfl
  · have hq := List.find?_some hfind
    simp only [Option.map_some']
    rw [if_pos hq]

lemma getTank?_setTank_ne (w : World) (s s' : String) (t : Tank) (h : s' ≠ s) :
    (w.setTank s t).getTank? s' = w.getTank? s' := by
  unfold World.getTank?
  rw [setTank_tanks_eq, List.find?_map]
  have hpred : ((fun (p : String × Tank) => p.1 == s') ∘ fun p => if p.1 == s then (s, t) else p)
      = fun (p : String × Tank) => p.1 == s' := by
    funext p
    by_cases hh : (p.1 == s) = true
    · have h1 : p.1 = s := eq_of_beq hh
      simp only [Function.comp_apply, if_pos hh]
      have hss : (s == s') = false := by
        simp only [beq_eq_false_iff_ne, ne_eq]
        exact fun hc => h hc.symm
      rw [show ((s, t).1 == s') = (s == s') from rfl, hss, h1]
      rw [show (s == s') = false from hss]
    · simp only [Function.comp_apply, if_neg hh]
  rw [hpred]
  rcases hfind : w.tanks.find? (fun (p : String × Tank) => p.1 == s') with _ | q
  · rfl
  · have hq := List.find?_some hfind
    have hqs : ¬ q.1 = s := by
      have h1 : q.1 = s' := eq_of_beq hq
      rw [h1]
      exact fun hc => h hc
    simp only [Option.map_some']
    rw [if_neg (by simpa using hqs : ¬ (q.1 == s) = true)]

lemma setTank_t (w : World) (s : String) (t : Tank) : (w.setTank s t).t = w.t := rfl

lemma setTank_constants (w : World) (s : String) (t : Tank) :
    (w.setTank s t).constants = w.constants := rfl

lemma setTank_projectiles (w : World) (s : String) (t : Tank) :
    (w.setTank s t).projectiles = w.projectiles := rfl

/-- A found tank is a member of the tank list under its key. -/
lemma getTank?_mem (w : World) (s : String) (t : Tank) (h : w.getTank? s = some t) :
    (s, t) ∈ w.tanks := by
  unfold World.getTank? at h
  rcases hfind : w.tanks.find? (fun p => p.1 == s) with _ | p
  · rw [hfind] at h
    exact absurd h (by simp)
  · rw [hfind] at h
    have hmem := List.mem_of_find?_eq_some hfind
    have hkey := List.find?_some hfind
    have : p = (s, t) := by
      have h1 : p.1 = s := eq_of_beq hkey
      have h2 : p.2 = t := by simpa using h
      exact Prod.ext h1 h2
    rwa [this] at hmem

lemma find?_key_isSome (s : String) (l : List (String × Tank)) (h : s ∈ l.map Prod.fst) :
    ∃ q, l.find? (fun p => p.1 == s) = some q := by
  induction l with
  | nil => simp at h
  | cons hd tl ih =>
    rw [List.map_cons, List.mem_cons] at h
    by_cases hh : (hd.1 == s) = true
    · exact ⟨hd, by simp [List.find?_cons, hh]⟩
    · have hs : s ∈ tl.map Prod.fst := by
        rcases h with hcase | hcase
        · exact absurd (by simp [hcase]) hh
        · exact hcase
      rcases ih hs with ⟨q, hq⟩
      refine ⟨q, ?_⟩
      rw [List.find?_cons]
      simp only [Bool.not_eq_true] at hh
      rw [hh]
      exact hq

lemma find?_key_of_mem_nodup (l : List (String × Tank)) (hnd : (l.map Prod.fst).Nodup)
    (p : String × Tank) (hp : p ∈ l) : l.find? (fun q => q.1 == p.1) = some p := by
  induction l with
  | nil => cases hp
  | cons hd tl ih =>
    rw [List.map_cons, List.nodup_cons] at hnd
    rcases List.mem_cons.mp hp with rfl | htl
    · rw [List.find?_cons]
      simp
    · have hne : (hd.1 == p.1) = false := by
        simp only [beq_eq_false_iff_ne, ne_eq]
        intro hc
        exact hnd.1 (hc ▸ List.mem_map.mpr ⟨p, htl, rfl⟩)
      rw [List.find?_cons, hne]
      exact ih hnd.2 htl

/-- A key in the key list has a tank. -/
lemma getTank?_isSome_of_mem_keys (w : World) (s : String) (h : s ∈ w.keys) :
    ∃ t, w.getTank? s = some t := by
  rcases find?_key_isSome s w.tanks h with ⟨q, hq⟩
  exact ⟨q.2, by unfold World.getTank?; rw [hq]; rfl⟩

/-- With nodup keys, every entry is what lookup returns for its key. -/
lemma getTank?_of_mem (w : World) (hnd : w.keys.Nodup) (p : String × Tank)
    (hp : p ∈ w.tanks) : w.getTank? p.1 = some p.2 := by
  unfold World.getTank?
  rw [find?_key_of_mem_nodup w.tanks hnd p hp]
  rfl

lemma Tank.sameExceptScanResult_refl (a : Tank) : a.sameExceptScanResult a :=
  ⟨rfl, rfl, rfl, rfl, rfl, rfl, rfl, rfl, rfl⟩

lemma clampToArena_fields (tank : Tank) (c : Constants) :
    (clampToArena tank c).slot = tank.slot ∧
      (clampToArena tank c).headingDeg = tank.headingDeg ∧
      (clampToArena tank c).hp = tank.hp ∧
      (clampToArena tank c).tankType = tank.tankType ∧
      (clampToArena tank c).busyUntil = tank.busyUntil ∧
      (clampToArena tank c).activeProjectileId = tank.activeProjectileId ∧
      (clampToArena tank c).activeAction = tank.activeAction ∧
      (clampToArena tank c).lastScanResult = tank.lastScanResult := by
  unfold clampToArena
  exact ⟨rfl, rfl, rfl, rfl, rfl, rfl, rfl, rfl⟩

lemma tickEffect_fields (c : Constants) (tank : Tank) (act : ActionDesc) (dt : ℝ) :
    (tickEffect c tank act dt).slot = tank.slot ∧
      (tickEffect c tank act dt).hp = tank.hp ∧
      (tickEffect c tank act dt).tankType = tank.tankType ∧
      (tickEffect c tank act dt).busyUntil = tank.busyUntil ∧
      (tickEffect c tank act dt).activeProjectileId = tank.activeProjectileId ∧
      (tickEffect c tank act dt).activeAction = tank.activeAction ∧
      (tickEffect c tank act dt).lastScanResult = tank.lastScanResult := by
  cases act <;> exact ⟨rfl, rfl, rfl, rfl, rfl, rfl, rfl⟩

lemma processSlot_frame (dt : ℝ) (slot : String) (w : World) :
    (processSlot dt slot w).2.t = w.t ∧ (processSlot dt slot w).2.constants = w.constants ∧
      (processSlot dt slot w).2.projectiles = w.projectiles ∧
      (processSlot dt slot w).2.keys = w.keys ∧
      (processSlot dt slot w).2.idCounter = w.idCounter ∧
      (processSlot dt slot w).2.rngState = w.rngState ∧
      (processSlot dt slot w).2.seed = w.seed := by
  unfold processSlot
  rcases w.getTank? slot with _ | tank
  · exact ⟨rfl, rfl, rfl, rfl, rfl, rfl, rfl⟩
  · dsimp only
    by_cases hhp : tank.hp ≤ 0
    · rw [if_pos hhp]
      exact ⟨rfl, rfl, rfl, rfl, rfl, rfl, rfl⟩
    · rw [if_neg hhp]
      rcases tank.activeAction with _ | act
      · exact ⟨rfl, rfl, rfl, rfl, rfl, rfl, rfl⟩
      · dsimp only
        by_cases hdone :
          w.t + dt ≥ (tickEffect w.constants tank act dt).busyUntil - EPSILON
        · rw [if_pos hdone]
          exact ⟨rfl, rfl, rfl, by rw [keys_setTank, keys_setTank], rfl, rfl, rfl⟩
        · rw [if_neg hdone]
          exact ⟨rfl, rfl, rfl, by rw [keys_setTank], rfl, rfl, rfl⟩

lemma processSlot_other (dt : ℝ) (slot s' : String) (w : World) (h : s' ≠ slot) :
    (processSlot dt slot w).2.getTank? s' = w.getTank? s' ∧
      ∀ d, (processSlot dt slot w).1 = some d → d.slot = slot := by
  unfold processSlot
  rcases w.getTank? slot with _ | tank
  · exact ⟨rfl, by intro d hd; cases hd⟩
  · dsimp only
    by_cases hhp : tank.hp ≤ 0
    · rw [if_pos hhp]
      exact ⟨rfl, by intro d hd; cases hd⟩
    · rw [if_neg hhp]
      rcases tank.activeAction with _ | act
      · exact ⟨rfl, by intro d hd; cases hd⟩
      · dsimp only
        by_cases hdone :
          w.t + dt ≥ (tickEffect w.constants tank act dt).busyUntil - EPSILON
        · rw [if_pos hdone]
          refine ⟨?_, ?_⟩
          · rw [getTank?_setTank_ne _ _ _ _ h, getTank?_setTank_ne _ _ _ _ h]
          · intro d hd
            cases hd
            rfl
        · rw [if_neg hdone]
          exact ⟨getTank?_setTank_ne _ _ _ _ h, by intro d hd; cases hd⟩

lemma processSlot_self (dt : ℝ) (slot : String) (w : World) (tank : Tank)
    (hget : w.getTank? slot = some tank) :
    ∃ t', (processSlot dt slot w).2.getTank? slot = some t' ∧
      t'.sameExceptScanResult (processOwn w.constants w.t dt tank).1 ∧
      (processSlot dt slot w).1.isSome = (processOwn w.constants w.t dt tank).2 ∧
      ∀ d, (processSlot dt slot w).1 = some d →
        d.slot = slot ∧ ∃ act, tank.activeAction = some act ∧ d.actionType = act.tag := by
  unfold processSlot processOwn
  rw [hget]
  dsimp only
  by_cases hhp : tank.hp ≤ 0
  · rw [if_pos hhp, if_pos hhp]
    exact ⟨tank, hget, Tank.sameExceptScanResult_refl tank, rfl, by intro d hd; cases hd⟩
  · rw [if_neg hhp, if_neg hhp]
    rcases hact : tank.activeAction with _ | act
    · exact ⟨tank, hget, Tank.sameExceptScanResult_refl tank, rfl, by intro d hd; cases hd⟩
    · dsimp only
      have h1 : ∀ t1 : Tank, (w.setTank slot t1).getTank? slot = some t1 := by
        intro t1
        rw [getTank?_setTank_self, hget]
        rfl
      have h2 : ∀ t1 t3 : Tank,
          ((w.setTank slot t1).setTank slot t3).getTank? slot = some t3 := by
        intro t1 t3
        rw [getTank?_setTank_self, getTank?_setTank_self, hget]
        rfl
      by_cases hdone : w.t + dt ≥ (tickEffect w.constants tank act dt).busyUntil - EPSILON
      · rw [if_pos hdone, if_pos hdone]
        refine ⟨_, h2 _ _, ?_, rfl, ?_⟩
        · cases act <;> exact ⟨rfl, rfl, rfl, rfl, rfl, rfl, rfl, rfl, rfl⟩
        · intro d hd
          cases hd
          exact ⟨rfl, act, rfl, rfl⟩
      · rw [if_neg hdone, if_neg hdone]
        refine ⟨_, h1 _, ?_, rfl, ?_⟩
        · exact Tank.sameExceptScanResult_refl _
        · intro d hd
          cases hd

lemma applyGo_frame (dt : ℝ) (L : List String) : ∀ w : World,
    (applyGo dt L w).2.t = w.t ∧ (applyGo dt L w).2.constants = w.constants ∧
      (applyGo dt L w).2.projectiles = w.projectiles ∧
      (applyGo dt L w).2.keys = w.keys ∧
      (applyGo dt L w).2.idCounter = w.idCounter := by
  induction L with
  | nil => exact fun w => ⟨rfl, rfl, rfl, rfl, rfl⟩
  | cons slot rest ih =>
    intro w
    have hps := processSlot_frame dt slot w
    have hih := ih (processSlot dt slot w).2
    unfold applyGo
    refine ⟨?_, ?_, ?_, ?_, ?_⟩
    · rw [hih.1, hps.1]
    · rw [hih.2.1, hps.2.1]
    · rw [hih.2.2.1, hps.2.2.1]
    · rw [hih.2.2.2.1, hps.2.2.2.1]
    · rw [hih.2.2.2.2, hps.2.2.2.2.1]

lemma mem_option_toList {α : Type} (o : Option α) (a : α) (h : a ∈ o.toList) : o = some a := by
  cases o with
  | none => cases h
  | some b =>
    have : a = b := by simpa [Option.toList] using h
    rw [this]

lemma applyGo_untouched (dt : ℝ) (L : List String) (s : String) (h : s ∉ L) : ∀ w : World,
    (applyGo dt L w).2.getTank? s = w.getTank? s ∧
      ∀ d ∈ (applyGo dt L w).1, d.slot ≠ s := by
  induction L with
  | nil => exact fun w => ⟨rfl, by intro d hd; cases hd⟩
  | cons slot rest ih =>
    intro w
    have hs : s ≠ slot := fun hc => h (hc ▸ List.mem_cons_self slot rest)
    have hrest : s ∉ rest := fun hc => h (List.mem_cons_of_mem slot hc)
    have hps := processSlot_other dt slot s w hs
    have hih := ih hrest (processSlot dt slot w).2
    unfold applyGo
    refine ⟨?_, ?_⟩
    · rw [hih.1, hps.1]
    · intro d hd
      rcases List.mem_append.mp hd with hd1 | hd2
      · rw [hps.2 d (mem_option_toList _ _ hd1)]
        exact fun hc => hs hc.symm
      · exact hih.2 d hd2

lemma applyGo_spec (dt : ℝ) (L : List String) (s : String) : ∀ (w : World) (tank : Tank),
    L.Nodup → s ∈ L → w.getTank? s = some tank →
    ∃ t', (applyGo dt L w).2.getTank? s = some t' ∧
      t'.sameExceptScanResult (processOwn w.constants w.t dt tank).1 ∧
      ((∃ d ∈ (applyGo dt L w).1, d.slot = s) ↔ (processOwn w.constants w.t dt tank).2 = true) ∧
      ∀ d ∈ (applyGo dt L w).1, d.slot = s →
        ∃ act, tank.activeAction = some act ∧ d.actionType = act.tag := by
  induction L with
  | nil =>
    intro w tank _ hmem
    cases hmem
  | cons slot rest ih =>
    intro w tank hnd hmem hget
    rw [List.nodup_cons] at hnd
    unfold applyGo
    by_cases hss : s = slot
    · subst hss
      rcases processSlot_self dt s w tank hget with ⟨t', hg, hsame, hisSome, hdesc⟩
      have hun := applyGo_untouched dt rest s hnd.1 (processSlot dt s w).2
      refine ⟨t', ?_, hsame, ?_, ?_⟩
      · rw [hun.1, hg]
      · constructor
        · rintro ⟨d, hd, hds⟩
          rcases List.mem_append.mp hd with hd1 | hd2
          · rw [← hisSome, mem_option_toList _ _ hd1]
            rfl
          · exact absurd hds (hun.2 d hd2)
        · intro hflag
          rw [← hisSome] at hflag
          rcases ho : (processSlot dt s w).1 with _ | d
          · rw [ho] at hflag
            cases hflag
          · refine ⟨d, ?_, (hdesc d ho).1⟩
            apply List.mem_append.mpr
            left
            rw [ho]
            exact List.mem_singleton.mpr rfl
      · intro d hd hds
        rcases List.mem_append.mp hd with hd1 | hd2
        · exact (hdesc d (mem_option_toList _ _ hd1)).2
        · exact absurd hds (hun.2 d hd2)
    · have hmem' : s ∈ rest := by
        rcases List.mem_cons.mp hmem with h1 | h1
        · exact absurd h1 hss
        · exact h1
      have hpo := processSlot_other dt slot s w hss
      have hframe := processSlot_frame dt slot w
      have hget' : (processSlot dt slot w).2.getTank? s = some tank := by
        rw [hpo.1, hget]
      rcases ih (processSlot dt slot w).2 tank hnd.2 hmem' hget' with ⟨t', hg, hsame, hiff, hdesc⟩
      rw [hframe.1, hframe.2.1] at hsame hiff
      refine ⟨t', hg, hsame, ?_, ?_⟩
      · constructor
        · rintro ⟨d, hd, hds⟩
          rcases List.mem_append.mp hd with hd1 | hd2
          · exact absurd (hds ▸ hpo.2 d (mem_option_toList _ _ hd1) : s = slot) hss
          · exact hiff.mp ⟨d, hd2, hds⟩
        · intro hflag
          rcases hiff.mpr hflag with ⟨d, hd, hds⟩
          exact ⟨d, List.mem_append.mpr (Or.inr hd), hds⟩
      · intro d hd hds
        rcases List.mem_append.mp hd with hd1 | hd2
        · exact absurd (hds ▸ hpo.2 d (mem_option_toList _ _ hd1) : s = slot) hss
        · exact hdesc d hd2 hds

lemma combatTankRel_refl (damage : ℝ) (t : Tank) : combatTankRel damage t t :=
  ⟨rfl, rfl, rfl, rfl, rfl, rfl, rfl, rfl, Or.inl rfl, fun _ => le_refl _⟩

lemma combatTankRel_trans (damage : ℝ) (a b c : Tank) (h1 : combatTankRel damage a b)
    (h2 : combatTankRel damage b c) : combatTankRel damage a c := by
  obtain ⟨s1, x1, y1, hd1, ty1, bu1, aa1, ls1, pi1, hp1⟩ := h1
  obtain ⟨s2, x2, y2, hd2, ty2, bu2, aa2, ls2, pi2, hp2⟩ := h2
  refine ⟨s2.trans s1, x2.trans x1, y2.trans y1, hd2.trans hd1, ty2.trans ty1,
    bu2.trans bu1, aa2.trans aa1, ls2.trans ls1, ?_, fun h => (hp2 h).trans (hp1 h)⟩
  rcases pi2 with h | h
  · rw [h]
    exact pi1
  · exact Or.inr h

lemma worldCombatRel_refl (damage : ℝ) (w : World) : worldCombatRel damage w w :=
  fun _ t h => ⟨t, h, combatTankRel_refl damage t⟩

lemma worldCombatRel_trans (damage : ℝ) (a b c : World) (h1 : worldCombatRel damage a b)
    (h2 : worldCombatRel damage b c) : worldCombatRel damage a c := by
  intro s t hget
  rcases h1 s t hget with ⟨t1, hg1, hr1⟩
  rcases h2 s t1 hg1 with ⟨t2, hg2, hr2⟩
  exact ⟨t2, hg2, combatTankRel_trans damage t t1 t2 hr1 hr2⟩

lemma clearProjectileFromOwner_rel (damage : ℝ) (w : World) (p : Projectile) :
    worldCombatRel damage w (clearProjectileFromOwner w p) := by
  unfold clearProjectileFromOwner
  rcases hown : w.getTank? p.owner with _ | owner
  · exact worldCombatRel_refl damage w
  · dsimp only
    by_cases hcond : owner.activeProjectileId = some p.id
    · rw [if_pos hcond]
      intro s t hget
      by_cases hs : s = p.owner
      · subst hs
        have hto : t = owner := by
          rw [hget] at hown
          injection hown
        refine ⟨{ owner with activeProjectileId := none }, ?_, ?_⟩
        · rw [getTank?_setTank_self, hget]
          rfl
        · subst hto
          exact ⟨rfl, rfl, rfl, rfl, rfl, rfl, rfl, rfl, Or.inr rfl, fun _ => le_refl _⟩
      · exact ⟨t, by rw [getTank?_setTank_ne _ _ _ _ hs]; exact hget,
          combatTankRel_refl damage t⟩
    · rw [if_neg hcond]
      exact worldCombatRel_refl damage w

lemma removeProjectile_getTank? (w : World) (pid : ℕ) (s : String) :
    (removeProjectile w pid).getTank? s = w.getTank? s := rfl

lemma clearProjectileFromOwner_frame (w : World) (p : Projectile) :
    (clearProjectileFromOwner w p).t = w.t ∧
      (clearProjectileFromOwner w p).constants = w.constants ∧
      (clearProjectileFromOwner w p).projectiles = w.projectiles ∧
      (clearProjectileFromOwner w p).keys = w.keys := by
  unfold clearProjectileFromOwner
  rcases w.getTank? p.owner with _ | owner
  · exact ⟨rfl, rfl, rfl, rfl⟩
  · dsimp only
    by_cases hcond : owner.activeProjectileId = some p.id
    · rw [if_pos hcond]
      exact ⟨rfl, rfl, rfl, keys_setTank _ _ _⟩
    · rw [if_neg hcond]
      exact ⟨rfl, rfl, rfl, rfl⟩

lemma despawnGo_frame (L : List Projectile) : ∀ w : World,
    (despawnGo L w).2.t = w.t ∧ (despawnGo L w).2.constants = w.constants ∧
      (despawnGo L w).2.keys = w.keys := by
  induction L with
  | nil => exact fun w => ⟨rfl, rfl, rfl⟩
  | cons p rest ih =>
    intro w
    unfold despawnGo
    by_cases hoob : isOOB w.constants p = true
    · rw [if_pos hoob]
      have hcf := clearProjectileFromOwner_frame w p
      have hih := ih (removeProjectile (clearProjectileFromOwner w p) p.id)
      refine ⟨?_, ?_, ?_⟩
      · rw [hih.1]
        exact hcf.1
      · rw [hih.2.1]
        exact hcf.2.1
      · rw [hih.2.2]
        exact hcf.2.2.2
    · rw [if_neg hoob]
      exact ih w

lemma despawnGo_rel (damage : ℝ) (L : List Projectile) : ∀ w : World,
    worldCombatRel damage w (despawnGo L w).2 := by
  induction L with
  | nil => exact fun w => worldCombatRel_refl damage w
  | cons p rest ih =>
    intro w
    unfold despawnGo
    by_cases hoob : isOOB w.constants p = true
    · rw [if_pos hoob]
      exact worldCombatRel_trans damage _ _ _ (clearProjectileFromOwner_rel damage w p)
        (ih (removeProjectile (clearProjectileFromOwner w p) p.id))
    · rw [if_neg hoob]
      exact ih w

lemma despawnGo_proj_subset (L : List Projectile) : ∀ (w : World) (q : Projectile),
    q ∈ (despawnGo L w).2.projectiles → q ∈ w.projectiles := by
  induction L with
  | nil => exact fun w q h => h
  | cons p rest ih =>
    intro w q hq
    unfold despawnGo at hq
    by_cases hoob : isOOB w.constants p = true
    · rw [if_pos hoob] at hq
      have := ih _ q hq
      have h2 : q ∈ (clearProjectileFromOwner w p).projectiles := List.mem_of_mem_filter this
      rwa [(clearProjectileFromOwner_frame w p).2.2.1] at h2
    · rw [if_neg hoob] at hq
      exact ih w q hq

lemma despawnGo_events_shape (L : List Projectile) : ∀ w : World,
    ∀ e ∈ (despawnGo L w).1, ∃ pid o, e = .despawn pid o "oob" := by
  induction L with
  | nil => intro w e he; cases he
  | cons p rest ih =>
    intro w e he
    unfold despawnGo at he
    by_cases hoob : isOOB w.constants p = true
    · rw [if_pos hoob] at he
      rcases List.mem_cons.mp he with rfl | htl
      · exact ⟨p.id, p.owner, rfl⟩
      · exact ih _ e htl
    · rw [if_neg hoob] at he
      exact ih w e he

lemma removeProjectile_not_mem (w : World) (pid : ℕ) (q : Projectile)
    (hq : q ∈ (removeProjectile w pid).projectiles) : q.id ≠ pid := by
  unfold removeProjectile at hq
  have := List.of_mem_filter hq
  simpa using this

/-- An out-of-bounds projectile in the snapshot list is gone from the
projectile map after the despawn loop. -/
lemma despawnGo_removes (L : List Projectile) : ∀ (w : World) (p : Projectile), p ∈ L →
    isOOB w.constants p = true → ∀ q ∈ (despawnGo L w).2.projectiles, q.id ≠ p.id := by
  induction L with
  | nil => intro w p hp; cases hp
  | cons hd rest ih =>
    intro w p hp hoobp q hq
    unfold despawnGo at hq
    rcases List.mem_cons.mp hp with rfl | htl
    · rw [if_pos hoobp] at hq
      exact removeProjectile_not_mem _ _ q (despawnGo_proj_subset rest _ q hq)
    · by_cases hoob : isOOB w.constants hd = true
      · rw [if_pos hoob] at hq
        have hc : isOOB (removeProjectile (clearProjectileFromOwner w hd) hd.id).constants p
            = true := by
          have h1 : (removeProjectile (clearProjectileFromOwner w hd) hd.id).constants
              = w.constants := (clearProjectileFromOwner_frame w hd).2.1
          rw [h1]
          exact hoobp
        exact ih _ p htl hc q hq
      · rw [if_neg hoob] at hq
        exact ih w p htl hoobp q hq

/-- The despawn loop emits the `oob` despawn event for every out-of-bounds
projectile of its snapshot list. -/
lemma despawnGo_emits (L : List Projectile) : ∀ (w : World) (p : Projectile), p ∈ L →
    isOOB w.constants p = true →
    Event.despawn p.id p.owner "oob" ∈ (despawnGo L w).1 := by
  induction L with
  | nil => intro w p hp; cases hp
  | cons hd rest ih =>
    intro w p hp hoobp
    unfold despawnGo
    rcases List.mem_cons.mp hp with rfl | htl
    · rw [if_pos hoobp]
      exact List.mem_cons_self _ _
    · by_cases hoob : isOOB w.constants hd = true
      · rw [if_pos hoob]
        apply List.mem_cons_of_mem
        have h1 : (removeProjectile (clearProjectileFromOwner w hd) hd.id).constants
            = w.constants := (clearProjectileFromOwner_frame w hd).2.1
        exact ih _ p htl (by rw [h1]; exact hoobp)
      · rw [if_neg hoob]
        exact ih w p htl hoobp

lemma findHitTarget_spec (w : World) (rs : ℝ) (p : Projectile) (ts : String) (tg : Tank)
    (h : findHitTarget w rs p = some (ts, tg)) :
    (ts, tg) ∈ w.tanks ∧ ts ≠ p.owner ∧ 0 < tg.hp := by
  unfold findHitTarget at h
  have hmem := List.mem_of_find?_eq_some h
  have hpred := List.find?_some h
  simp only [Bool.and_eq_true, bne_iff_ne, decide_eq_true_eq] at hpred
  exact ⟨hmem, hpred.1.1, hpred.1.2⟩

lemma hitGo_frame (rs damage : ℝ) (L : List Projectile) : ∀ w : World,
    (hitGo rs damage L w).2.t = w.t ∧ (hitGo rs damage L w).2.constants = w.constants ∧
      (hitGo rs damage L w).2.keys = w.keys := by
  induction L with
  | nil => exact fun w => ⟨rfl, rfl, rfl⟩
  | cons p rest ih =>
    intro w
    unfold hitGo
    rcases hft : findHitTarget w rs p with _ | pair
    · exact ih w
    · rcases pair with ⟨targetSlot, target⟩
      dsimp only
      set w1 := w.setTank targetSlot
        { target with hp := if target.hp - damage < 0 then 0 else target.hp - damage } with hw1
      have hcf := clearProjectileFromOwner_frame w1 p
      have hih := ih (removeProjectile (clearProjectileFromOwner w1 p) p.id)
      refine ⟨?_, ?_, ?_⟩
      · rw [hih.1]
        exact hcf.1
      · rw [hih.2.1]
        exact hcf.2.1
      · rw [hih.2.2,
          show (removeProjectile (clearProjectileFromOwner w1 p) p.id).keys
            = (clearProjectileFromOwner w1 p).keys from rfl,
          hcf.2.2.2, hw1, keys_setTank]

lemma hitGo_rel (rs damage : ℝ) (L : List Projectile) : ∀ w : World, w.keys.Nodup →
    worldCombatRel damage w (hitGo rs damage L w).2 := by
  induction L with
  | nil => exact fun w _ => worldCombatRel_refl damage w
  | cons p rest ih =>
    intro w hnd
    unfold hitGo
    rcases hft : findHitTarget w rs p with _ | pair
    · exact ih w hnd
    · rcases pair with ⟨targetSlot, target⟩
      dsimp only
      rcases findHitTarget_spec w rs p targetSlot target hft with ⟨hmem, _, hhp⟩
      have hget : w.getTank? targetSlot = some target := getTank?_of_mem w hnd (_, _) hmem
      set target' : Tank :=
        { target with hp := if target.hp - damage < 0 then 0 else target.hp - damage }
        with htarget'
      set w1 := w.setTank targetSlot target' with hw1
      have hrel1 : worldCombatRel damage w w1 := by
        intro s t hg
        by_cases hs : s = targetSlot
        · subst hs
          have ht : t = target := by
            rw [hg] at hget
            injection hget
          refine ⟨target', ?_, ?_⟩
          · rw [hw1, getTank?_setTank_self, hg]
            rfl
          · subst ht
            refine ⟨rfl, rfl, rfl, rfl, rfl, rfl, rfl, rfl, Or.inl rfl, ?_⟩
            intro hdmg
            rw [htarget']
            dsimp only
            by_cases hneg : t.hp - damage < 0
            · rw [if_pos hneg]
              exact le_of_lt hhp
            · rw [if_neg hneg]
              linarith
        · exact ⟨t, by rw [hw1, getTank?_setTank_ne _ _ _ _ hs]; exact hg,
            combatTankRel_refl damage t⟩
      have hnd1 : (removeProjectile (clearProjectileFromOwner w1 p) p.id).keys.Nodup := by
        have h1 : (removeProjectile (clearProjectileFromOwner w1 p) p.id).keys = w.keys := by
          rw [show (removeProjectile (clearProjectileFromOwner w1 p) p.id).keys
              = (clearProjectileFromOwner w1 p).keys from rfl,
            (clearProjectileFromOwner_frame w1 p).2.2.2, hw1, keys_setTank]
        rw [h1]
        exact hnd
      refine worldCombatRel_trans damage _ _ _ hrel1 ?_
      refine worldCombatRel_trans damage _ _ _ (clearProjectileFromOwner_rel damage w1 p) ?_
      exact ih _ hnd1

lemma hitGo_events_shape (rs damage : ℝ) (L : List Projectile) : ∀ w : World,
    ∀ e ∈ (hitGo rs damage L w).1,
      ∃ pid o tg, e = .hit pid o tg damage ∧ pid ∈ L.map (·.id) := by
  induction L with
  | nil => intro w e he; cases he
  | cons p rest ih =>
    intro w e he
    unfold hitGo at he
    rcases hft : findHitTarget w rs p with _ | pair
    · rw [hft] at he
      rcases ih w e he with ⟨pid, o, tg, he', hmem⟩
      exact ⟨pid, o, tg, he', List.mem_cons_of_mem _ hmem⟩
    · rcases pair with ⟨targetSlot, target⟩
      rw [hft] at he
      dsimp only at he
      rcases List.mem_cons.mp he with rfl | htl
      · exact ⟨p.id, p.owner, targetSlot, rfl, List.mem_cons_self _ _⟩
      · rcases ih _ e htl with ⟨pid, o, tg, he', hmem⟩
        exact ⟨pid, o, tg, he', List.mem_cons_of_mem _ hmem⟩

/-- `step` is exactly the composition of its phases, with the events
concatenated in phase order. -/
lemma step_eq (w : World) :
    step w =
      ((stepApplied w).1.map
          (fun ca => Event.actionComplete ca.slot ca.actionType ca.scanResult) ++
        (stepDespawned w).1 ++ (stepHits w).1 ++ matchEndEvents (stepFinal w),
        stepFinal w) := rfl

lemma stepMoved_tanks (w : World) : ∀ s, (stepMoved w).getTank? s = (stepApplied w).2.getTank? s :=
  fun _ => rfl

lemma hitPhase_frame (w : World) :
    (hitPhase w).2.t = w.t ∧ (hitPhase w).2.constants = w.constants ∧
      (hitPhase w).2.keys = w.keys := by
  unfold hitPhase
  exact hitGo_frame _ _ _ w

lemma despawnPhase_frame (w : World) :
    (despawnPhase w).2.t = w.t ∧ (despawnPhase w).2.constants = w.constants ∧
      (despawnPhase w).2.keys = w.keys := by
  unfold despawnPhase
  exact despawnGo_frame _ w

lemma step_constants (w : World) : (step w).2.constants = w.constants :=
  calc (step w).2.constants
      = (stepDespawned w).2.constants := (hitPhase_frame (stepDespawned w).2).2.1
    _ = (stepMoved w).constants := (despawnPhase_frame (stepMoved w)).2.1
    _ = w.constants := (applyGo_frame (stepDt w) (w.tanks.map (fun p : String × Tank => p.1)) w).2.1

lemma step_t (w : World) : (step w).2.t = w.t + stepDt w := by
  have h : (stepHits w).2.t = w.t :=
    calc (stepHits w).2.t
        = (stepDespawned w).2.t := (hitPhase_frame (stepDespawned w).2).1
      _ = (stepMoved w).t := (despawnPhase_frame (stepMoved w)).1
      _ = w.t := (applyGo_frame (stepDt w) (w.tanks.map (fun p : String × Tank => p.1)) w).1
  show (stepHits w).2.t + stepDt w = w.t + stepDt w
  rw [h]

lemma step_keys (w : World) : (step w).2.keys = w.keys :=
  calc (step w).2.keys
      = (stepDespawned w).2.keys := (hitPhase_frame (stepDespawned w).2).2.2
    _ = (stepMoved w).keys := (despawnPhase_frame (stepMoved w)).2.2
    _ = w.keys := (applyGo_frame (stepDt w) (w.tanks.map (fun p : String × Tank => p.1)) w).2.2.2.1

lemma matchEndEvents_shape (w : World) :
    ∀ e ∈ matchEndEvents w, ∃ win r, e = .matchEnd win r := by
  intro e he
  simp only [matchEndEvents] at he
  by_cases h1 : (aliveSlots w).length ≤ 1
  · rw [if_pos h1] at he
    rcases hal : aliveSlots w with _ | ⟨a, rest⟩
    · rw [hal] at he
      exact ⟨none, "double_ko", by simpa using he⟩
    · rcases rest with _ | _
      · rw [hal] at he
        exact ⟨some a, "hp", by simpa using he⟩
      · rw [hal] at he
        exact ⟨none, "double_ko", by simpa using he⟩
  · rw [if_neg h1] at he
    by_cases h2 : w.t ≥ w.constants.MATCH_TIME_LIMIT
    · rw [if_pos h2] at he
      rcases hsort : (aliveSlots w).mergeSort fun a b => decide (hpOf w b ≤ hpOf w a) with
        _ | ⟨a, _ | ⟨b, rest⟩⟩
      · rw [hsort] at he
        simp at he
      · rw [hsort] at he
        simp at he
      · rw [hsort] at he
        dsimp only at he
        by_cases h3 : hpOf w a > hpOf w b
        · rw [if_pos h3] at he
          exact ⟨some a, "timeout", by simpa using he⟩
        · rw [if_neg h3] at he
          exact ⟨none, "timeout", by simpa using he⟩
    · rw [if_neg h2] at he
      cases he

lemma despawnPhase_events_shape (w : World) :
    ∀ e ∈ (despawnPhase w).1, ∃ pid o, e = .despawn pid o "oob" := by
  unfold despawnPhase
  exact despawnGo_events_shape _ w

lemma hitPhase_events_shape (w : World) :
    ∀ e ∈ (hitPhase w).1, ∃ pid o tg dm, e = .hit pid o tg dm := by
  unfold hitPhase
  intro e he
  rcases hitGo_events_shape _ _ _ w e he with ⟨pid, o, tg, he', _⟩
  exact ⟨pid, o, tg, _, he'⟩

/-- An `actionComplete` event of a tick corresponds exactly to a completion
descriptor of phase 0; the other phases only produce other event kinds. -/
lemma actionComplete_mem_step (w : World) (s : String) (ty : ActionType) (sr : Option Bool) :
    Event.actionComplete s ty sr ∈ (step w).1 ↔
      ∃ d ∈ (stepApplied w).1, d.slot = s ∧ d.actionType = ty ∧ d.scanResult = sr := by
  rw [step_eq]
  constructor
  · intro he
    simp only [List.mem_append] at he
    rcases he with ((h0 | h1) | h2) | h3
    · rcases List.mem_map.mp h0 with ⟨ca, hca, heq⟩
      injection heq with e1 e2 e3
      exact ⟨ca, hca, e1, e2, e3⟩
    · rcases despawnPhase_events_shape (stepMoved w) _ h1 with ⟨pid, o, hsh⟩
      cases hsh
    · rcases hitPhase_events_shape (stepDespawned w).2 _ h2 with ⟨pid, o, tg, dm, hsh⟩
      cases hsh
    · rcases matchEndEvents_shape (stepFinal w) _ h3 with ⟨win, r, hsh⟩
      cases hsh
  · rintro ⟨d, hd, h1, h2, h3⟩
    apply List.mem_append.mpr
    left
    apply List.mem_append.mpr
    left
    apply List.mem_append.mpr
    left
    exact List.mem_map.mpr ⟨d, hd, by rw [h1, h2, h3]⟩

lemma despawnPhase_rel (damage : ℝ) (w : World) :
    worldCombatRel damage w (despawnPhase w).2 := by
  unfold despawnPhase
  exact despawnGo_rel damage _ w

lemma hitPhase_rel (w : World) (hnd : w.keys.Nodup) :
    worldCombatRel w.constants.PROJECTILE_DAMAGE w (hitPhase w).2 := by
  unfold hitPhase
  exact hitGo_rel _ _ _ w hnd

/-- The per-tank effect of one whole `step`: every stored field of the slot's
tank evolves exactly as `processOwn` dictates, except that combat may clear
`activeProjectileId` and reduce `hp`; and an `actionComplete` event for the
slot is emitted iff `processOwn` reports completion. -/
lemma step_tank (w : World) (s : String) (tank : Tank)
    (hnd : w.keys.Nodup) (hget : w.getTank? s = some tank) :
    ∃ t', (step w).2.getTank? s = some t' ∧
      t'.slot = (processOwn w.constants w.t (stepDt w) tank).1.slot ∧
      t'.x = (processOwn w.constants w.t (stepDt w) tank).1.x ∧
      t'.y = (processOwn w.constants w.t (stepDt w) tank).1.y ∧
      t'.headingDeg = (processOwn w.constants w.t (stepDt w) tank).1.headingDeg ∧
      t'.tankType = (processOwn w.constants w.t (stepDt w) tank).1.tankType ∧
      t'.busyUntil = (processOwn w.constants w.t (stepDt w) tank).1.busyUntil ∧
      t'.activeAction = (processOwn w.constants w.t (stepDt w) tank).1.activeAction ∧
      (0 ≤ w.constants.PROJECTILE_DAMAGE →
        t'.hp ≤ (processOwn w.constants w.t (stepDt w) tank).1.hp) ∧
      (t'.activeProjectileId = (processOwn w.constants w.t (stepDt w) tank).1.activeProjectileId
        ∨ t'.activeProjectileId = none) ∧
      ((∃ ty sr, Event.actionComplete s ty sr ∈ (step w).1)
        ↔ (processOwn w.constants w.t (stepDt w) tank).2 = true) ∧
      (∀ ty sr, Event.actionComplete s ty sr ∈ (step w).1 →
        ∃ act, tank.activeAction = some act ∧ ty = act.tag) := by
  have hsmem : s ∈ w.tanks.map (fun p : String × Tank => p.1) := by
    have := getTank?_mem w s tank hget
    exact List.mem_map.mpr ⟨(s, tank), this, rfl⟩
  obtain ⟨t1, hg1, hsame, hiff, hdesc⟩ :=
    applyGo_spec (stepDt w) (w.tanks.map (fun p : String × Tank => p.1)) s w tank hnd hsmem hget
  have hg1' : (stepMoved w).getTank? s = some t1 := hg1
  obtain ⟨t2, hg2, hrel2⟩ := despawnPhase_rel w.constants.PROJECTILE_DAMAGE (stepMoved w) s t1 hg1'
  have hndD : (stepDespawned w).2.keys.Nodup := by
    have h1 : (stepDespawned w).2.keys = w.keys :=
      calc (stepDespawned w).2.keys
          = (stepMoved w).keys := (despawnPhase_frame (stepMoved w)).2.2
        _ = w.keys :=
          (applyGo_frame (stepDt w) (w.tanks.map (fun p : String × Tank => p.1)) w).2.2.2.1
    rw [h1]
    exact hnd
  have hcD : (stepDespawned w).2.constants = w.constants :=
    calc (stepDespawned w).2.constants
        = (stepMoved w).constants := (despawnPhase_frame (stepMoved w)).2.1
      _ = w.constants :=
        (applyGo_frame (stepDt w) (w.tanks.map (fun p : String × Tank => p.1)) w).2.1
  have hrelH := hitPhase_rel (stepDespawned w).2 hndD
  rw [hcD] at hrelH
  obtain ⟨t3, hg3, hrel3⟩ := hrelH s t2 hg2
  have hrel : combatTankRel w.constants.PROJECTILE_DAMAGE t1 t3 :=
    combatTankRel_trans _ t1 t2 t3 hrel2 hrel3
  obtain ⟨hs1, hx1, hy1, hh1, hhp1, hty1, hbu1, hpi1, haa1⟩ := hsame
  obtain ⟨hs3, hx3, hy3, hh3, hty3, hbu3, haa3, _, hpi3, hhp3⟩ := hrel
  refine ⟨t3, ?_, ?_, ?_, ?_, ?_, ?_, ?_, ?_, ?_, ?_, ?_, ?_⟩
  · rw [step_eq]
    exact hg3
  · rw [hs3, hs1]
  · rw [hx3, hx1]
  · rw [hy3, hy1]
  · rw [hh3, hh1]
  · rw [hty3, hty1]
  · rw [hbu3, hbu1]
  · rw [haa3, haa1]
  · intro hdmg
    rw [← hhp1]
    exact hhp3 hdmg
  · rcases hpi3 with h | h
    · rw [h, hpi1]
      exact Or.inl rfl
    · exact Or.inr h
  · constructor
    · rintro ⟨ty, sr, hmem⟩
      rcases (actionComplete_mem_step w s ty sr).mp hmem with ⟨d, hd, hds, _, _⟩
      exact hiff.mp ⟨d, hd, hds⟩
    · intro hflag
      rcases hiff.mpr hflag with ⟨d, hd, hds⟩
      exact ⟨d.actionType, d.scanResult,
        (actionComplete_mem_step w s d.actionType d.scanResult).mpr ⟨d, hd, hds, rfl, rfl⟩⟩
  · intro ty sr hmem
    rcases (actionComplete_mem_step w s ty sr).mp hmem with ⟨d, hd, hds, hdt, _⟩
    rcases hdesc d hd hds with ⟨act, hact, htag⟩
    exact ⟨act, hact, by rw [← hdt, htag]⟩

lemma processOwn_fields (c : Constants) (tn dt : ℝ) (tank : Tank) :
    (processOwn c tn dt tank).1.slot = tank.slot ∧
      (processOwn c tn dt tank).1.hp = tank.hp ∧
      (processOwn c tn dt tank).1.tankType = tank.tankType ∧
      (processOwn c tn dt tank).1.busyUntil = tank.busyUntil ∧
      (processOwn c tn dt tank).1.activeProjectileId = tank.activeProjectileId := by
  unfold processOwn
  by_cases hhp : tank.hp ≤ 0
  · rw [if_pos hhp]
    exact ⟨rfl, rfl, rfl, rfl, rfl⟩
  · rw [if_neg hhp]
    rcases tank.activeAction with _ | act
    · exact ⟨rfl, rfl, rfl, rfl, rfl⟩
    · dsimp only
      have htf := tickEffect_fields c tank act dt
      by_cases hdone : tn + dt ≥ (tickEffect c tank act dt).busyUntil - EPSILON
      · rw [if_pos hdone]
        exact ⟨htf.1, htf.2.1, htf.2.2.1, htf.2.2.2.1, htf.2.2.2.2.1⟩
      · rw [if_neg hdone]
        exact ⟨htf.1, htf.2.1, htf.2.2.1, htf.2.2.2.1, htf.2.2.2.2.1⟩

lemma moveProjectiles_mem (w : World) (dt : ℝ) (q' : Projectile)
    (h : q' ∈ (moveProjectiles w dt).projectiles) :
    ∃ q ∈ w.projectiles, q'.id = q.id ∧ q'.owner = q.owner := by
  unfold moveProjectiles at h
  rcases List.mem_map.mp h with ⟨q, hq, hq'⟩
  exact ⟨q, hq, by rw [← hq'], by rw [← hq']⟩

lemma moveProjectiles_ids (w : World) (dt : ℝ) :
    (moveProjectiles w dt).projectiles.map (·.id) = w.projectiles.map (·.id) := by
  unfold moveProjectiles
  rw [List.map_map]
  rfl

lemma removeProjectile_ids_of_ne (w : World) (pid qid : ℕ) (hne : pid ≠ qid)
    (h : pid ∈ w.projectiles.map (·.id)) :
    pid ∈ (removeProjectile w qid).projectiles.map (·.id) := by
  rcases List.mem_map.mp h with ⟨q', hq', hid⟩
  refine List.mem_map.mpr ⟨q', ?_, hid⟩
  unfold removeProjectile
  refine List.mem_filter.mpr ⟨hq', ?_⟩
  simp only [hid, ne_eq, decide_eq_true_eq]
  exact hne

lemma removeProjectile_ids_sub (w : World) (qid pid : ℕ)
    (h : pid ∈ (removeProjectile w qid).projectiles.map (·.id)) :
    pid ∈ w.projectiles.map (·.id) := by
  rcases List.mem_map.mp h with ⟨q', hq', hid⟩
  exact List.mem_map.mpr ⟨q', List.mem_of_mem_filter hq', hid⟩

lemma removeProjectile_not_mem_ids (w : World) (qid : ℕ) :
    qid ∉ (removeProjectile w qid).projectiles.map (·.id) := by
  intro h
  rcases List.mem_map.mp h with ⟨q', hq', hid⟩
  exact removeProjectile_not_mem w qid q' hq' hid

/-- The clear-then-delete unit shared by the despawn and hit phases
preserves the one-shot channel state. -/
lemma pidTracked_removal (pid : ℕ) (s : String) (w : World) (q : Projectile)
    (hq : q.id = pid → q.owner = s) (h : pidTracked pid s w) :
    pidTracked pid s (removeProjectile (clearProjectileFromOwner w q) q.id) := by
  by_cases hqp : q.id = pid
  · have howner : q.owner = s := hq hqp
    rcases h with ⟨t, hg, hf, _⟩ | ⟨t, hg, hf, _⟩
    · refine Or.inr ⟨{ t with activeProjectileId := none }, ?_, rfl, ?_⟩
      · rw [removeProjectile_getTank?]
        unfold clearProjectileFromOwner
        rw [howner, hg]
        dsimp only
        rw [if_pos (by rw [hf, hqp]), getTank?_setTank_self, hg]
        rfl
      · rw [← hqp]
        exact removeProjectile_not_mem_ids _ _
    · refine Or.inr ⟨t, ?_, hf, ?_⟩
      · rw [removeProjectile_getTank?]
        unfold clearProjectileFromOwner
        rw [howner, hg]
        dsimp only
        rw [if_neg (by rw [hf]; exact fun hc => Option.noConfusion hc)]
        exact hg
      · rw [← hqp]
        exact removeProjectile_not_mem_ids _ _
  · have hclear : (clearProjectileFromOwner w q).getTank? s = w.getTank? s ∧
        (clearProjectileFromOwner w q).projectiles = w.projectiles := by
      refine ⟨?_, (clearProjectileFromOwner_frame w q).2.2.1⟩
      unfold clearProjectileFromOwner
      rcases hgo : w.getTank? q.owner with _ | ow
      · rfl
      · dsimp only
        by_cases hcond : ow.activeProjectileId = some q.id
        · rw [if_pos hcond]
          by_cases hos : s = q.owner
          · subst hos
            rcases h with ⟨t, hg, hf, _⟩ | ⟨t, hg, hf, _⟩ <;> rw [hg] at hgo <;>
              injection hgo with hgo' <;> subst hgo'
            · rw [hf] at hcond
              injection hcond with hc
              exact absurd hc.symm hqp
            · rw [hf] at hcond
              cases hcond
          · rw [getTank?_setTank_ne _ _ _ _ hos]
        · rw [if_neg hcond]
    rcases h with ⟨t, hg, hf, hmem⟩ | ⟨t, hg, hf, hmem⟩
    · refine Or.inl ⟨t, ?_, hf, ?_⟩
      · rw [removeProjectile_getTank?, hclear.1]
        exact hg
      · apply removeProjectile_ids_of_ne _ _ _ (fun hc => hqp hc.symm)
        rw [hclear.2]
        exact hmem
    · refine Or.inr ⟨t, ?_, hf, ?_⟩
      · rw [removeProjectile_getTank?, hclear.1]
        exact hg
      · intro hc
        exact hmem (by rw [← hclear.2]; exact removeProjectile_ids_sub _ _ _ hc)

lemma pidTracked_despawnGo (pid : ℕ) (s : String) (L : List Projectile) : ∀ w : World,
    (∀ q ∈ L, q.id = pid → q.owner = s) →
    pidTracked pid s w → pidTracked pid s (despawnGo L w).2 := by
  induction L with
  | nil => exact fun w _ h => h
  | cons q rest ih =>
    intro w hown h
    unfold despawnGo
    by_cases hoob : isOOB w.constants q = true
    · rw [if_pos hoob]
      exact ih _ (fun r hr => hown r (List.mem_cons_of_mem q hr))
        (pidTracked_removal pid s w q (hown q (List.mem_cons_self q rest)) h)
    · rw [if_neg hoob]
      exact ih w (fun r hr => hown r (List.mem_cons_of_mem q hr)) h

lemma pidTracked_hitGo (pid : ℕ) (s : String) (rs dm : ℝ) (L : List Projectile) :
    ∀ w : World, w.keys.Nodup →
    (∀ q ∈ L, q.id = pid → q.owner = s) →
    pidTracked pid s w → pidTracked pid s (hitGo rs dm L w).2 := by
  induction L with
  | nil => exact fun w _ _ h => h
  | cons q rest ih =>
    intro w hnd hown h
    unfold hitGo
    rcases hft : findHitTarget w rs q with _ | pair
    · exact ih w hnd (fun r hr => hown r (List.mem_cons_of_mem q hr)) h
    · rcases pair with ⟨targetSlot, target⟩
      dsimp only
      rcases findHitTarget_spec w rs q targetSlot target hft with ⟨hmem, _, _⟩
      have hgt : w.getTank? targetSlot = some target := getTank?_of_mem w hnd (_, _) hmem
      set target' : Tank :=
        { target with hp := if target.hp - dm < 0 then 0 else target.hp - dm } with htarget'
      set w1 := w.setTank targetSlot target' with hw1
      have h1 : pidTracked pid s w1 := by
        by_cases hts : s = targetSlot
        · subst hts
          rcases h with ⟨t, hg, hf, hmemp⟩ | ⟨t, hg, hf, hmemp⟩
          · have hteq : target = t := by
              rw [hg] at hgt
              injection hgt with h2
              exact h2.symm
            refine Or.inl ⟨target', ?_, ?_, hmemp⟩
            · rw [hw1, getTank?_setTank_self, hg]
              rfl
            · rw [htarget', hteq]
              exact hf
          · have hteq : target = t := by
              rw [hg] at hgt
              injection hgt with h2
              exact h2.symm
            refine Or.inr ⟨target', ?_, ?_, hmemp⟩
            · rw [hw1, getTank?_setTank_self, hg]
              rfl
            · rw [htarget', hteq]
              exact hf
        · rcases h with ⟨t, hg, hf, hmemp⟩ | ⟨t, hg, hf, hmemp⟩
          · exact Or.inl ⟨t, by rw [hw1, getTank?_setTank_ne _ _ _ _ hts]; exact hg, hf, hmemp⟩
          · exact Or.inr ⟨t, by rw [hw1, getTank?_setTank_ne _ _ _ _ hts]; exact hg, hf, hmemp⟩
      have hnd1 : (removeProjectile (clearProjectileFromOwner w1 q) q.id).keys.Nodup := by
        have hk : (removeProjectile (clearProjectileFromOwner w1 q) q.id).keys = w.keys := by
          rw [show (removeProjectile (clearProjectileFromOwner w1 q) q.id).keys
              = (clearProjectileFromOwner w1 q).keys from rfl,
            (clearProjectileFromOwner_frame w1 q).2.2.2, hw1, keys_setTank]
        rw [hk]
        exact hnd
      exact ih _ hnd1 (fun r hr => hown r (List.mem_cons_of_mem q hr))
        (pidTracked_removal pid s w1 q (hown q (List.mem_cons_self q rest)) h1)

/-- `shoot` on a tank with no live projectile: the exact result world. -/
lemma shoot_free (w : World) (s : String) (tank : Tank)
    (hget : w.getTank? s = some tank) (hfree : tank.activeProjectileId = none) :
    shoot w s = some (true,
      ({ w with
          projectiles := w.projectiles ++
            [{ id := w.idCounter, owner := s,
               x := tank.x + Real.cos (tank.headingDeg * DEG2RAD) *
                 (w.constants.TANK_RADIUS + w.constants.PROJECTILE_RADIUS + 1),
               y := tank.y + Real.sin (tank.headingDeg * DEG2RAD) *
                 (w.constants.TANK_RADIUS + w.constants.PROJECTILE_RADIUS + 1),
               vx := Real.cos (tank.headingDeg * DEG2RAD) * w.constants.PROJECTILE_SPEED,
               vy := Real.sin (tank.headingDeg * DEG2RAD) * w.constants.PROJECTILE_SPEED }],
          idCounter := w.idCounter + 1 } : World).setTank s
        { tank with activeProjectileId := some w.idCounter }) := by
  unfold shoot
  rw [hget]
  dsimp only
  rw [if_neg (by rw [hfree]; exact fun hc => hc rfl)]

/-- The one-shot channel state survives a whole `step`. -/
lemma pidTracked_step (w : World) (s : String) (pid : ℕ)
    (hnd : w.keys.Nodup)
    (hown : ∀ q ∈ w.projectiles, q.id = pid → q.owner = s)
    (h : pidTracked pid s w) : pidTracked pid s (step w).2 := by
  have hproj0 : (stepApplied w).2.projectiles = w.projectiles :=
    (applyGo_frame (stepDt w) (w.tanks.map (fun p : String × Tank => p.1)) w).2.2.1
  have h1 : pidTracked pid s (stepApplied w).2 := by
    rcases h with ⟨t, hg, hf, hmem⟩ | ⟨t, hg, hf, hmem⟩
    · obtain ⟨t1, hg1, hsame, _, _⟩ :=
        applyGo_spec (stepDt w) (w.tanks.map (fun p : String × Tank => p.1)) s w t hnd
          (List.mem_map.mpr ⟨(s, t), getTank?_mem w s t hg, rfl⟩) hg
      refine Or.inl ⟨t1, hg1, ?_, by rw [hproj0]; exact hmem⟩
      rw [hsame.2.2.2.2.2.2.2.1, (processOwn_fields w.constants w.t (stepDt w) t).2.2.2.2]
      exact hf
    · obtain ⟨t1, hg1, hsame, _, _⟩ :=
        applyGo_spec (stepDt w) (w.tanks.map (fun p : String × Tank => p.1)) s w t hnd
          (List.mem_map.mpr ⟨(s, t), getTank?_mem w s t hg, rfl⟩) hg
      refine Or.inr ⟨t1, hg1, ?_, by rw [hproj0]; exact hmem⟩
      rw [hsame.2.2.2.2.2.2.2.1, (processOwn_fields w.constants w.t (stepDt w) t).2.2.2.2]
      exact hf
  have h2 : pidTracked pid s (stepMoved w) := by
    rcases h1 with ⟨t, hg, hf, hmem⟩ | ⟨t, hg, hf, hmem⟩
    · exact Or.inl ⟨t, hg, hf, by rw [show (stepMoved w).projectiles.map (·.id)
        = (stepApplied w).2.projectiles.map (·.id) from moveProjectiles_ids _ _]; exact hmem⟩
    · exact Or.inr ⟨t, hg, hf, by rw [show (stepMoved w).projectiles.map (·.id)
        = (stepApplied w).2.projectiles.map (·.id) from moveProjectiles_ids _ _]; exact hmem⟩
  have hownM : ∀ q ∈ (stepMoved w).projectiles, q.id = pid → q.owner = s := by
    intro q hq hid
    rcases moveProjectiles_mem (stepApplied w).2 (stepDt w) q hq with ⟨q0, hq0, hqid, hqown⟩
    rw [hqown]
    exact hown q0 (by rw [← hproj0]; exact hq0) (by rw [← hqid]; exact hid)
  have h3 : pidTracked pid s (stepDespawned w).2 :=
    pidTracked_despawnGo pid s (stepMoved w).projectiles (stepMoved w) hownM h2
  have hndD : (stepDespawned w).2.keys.Nodup := by
    have hk : (stepDespawned w).2.keys = w.keys :=
      calc (stepDespawned w).2.keys
          = (stepMoved w).keys := (despawnPhase_frame (stepMoved w)).2.2
        _ = w.keys :=
          (applyGo_frame (stepDt w) (w.tanks.map (fun p : String × Tank => p.1)) w).2.2.2.1
    rw [hk]
    exact hnd
  have hownH : ∀ q ∈ (stepDespawned w).2.projectiles, q.id = pid → q.owner = s := by
    intro q hq hid
    exact hownM q (despawnGo_proj_subset _ _ q hq) hid
  have h4 : pidTracked pid s (stepHits w).2 :=
    pidTracked_hitGo pid s _ _ (stepDespawned w).2.projectiles (stepDespawned w).2 hndD hownH h3
  rw [step_eq]
  rcases h4 with ⟨t, hg, hf, hmem⟩ | ⟨t, hg, hf, hmem⟩
  · exact Or.inl ⟨t, hg, hf, hmem⟩
  · exact Or.inr ⟨t, hg, hf, hmem⟩

/-! ## Iterated stepping -/

lemma stepN_constants (w : World) : ∀ n : ℕ, (stepN w n).constants = w.constants := by
  intro n
  induction n with
  | zero => rfl
  | succ k ih =>
    show (step (stepN w k)).2.constants = w.constants
    rw [step_constants, ih]

lemma stepN_keys (w : World) : ∀ n : ℕ, (stepN w n).keys = w.keys := by
  intro n
  induction n with
  | zero => rfl
  | succ k ih =>
    show (step (stepN w k)).2.keys = w.keys
    rw [step_keys, ih]

lemma stepN_dt (w : World) (n : ℕ) : stepDt (stepN w n) = stepDt w := by
  unfold stepDt
  rw [stepN_constants]

lemma stepN_t (w : World) : ∀ n : ℕ, (stepN w n).t = w.t + n * stepDt w := by
  intro n
  induction n with
  | zero => simp [stepN]
  | succ k ih =>
    show (step (stepN w k)).2.t = w.t + (k + 1 : ℕ) * stepDt w
    rw [step_t, stepN_dt, ih]
    push_cast
    ring

lemma stepN_add (w : World) (a : ℕ) : ∀ b : ℕ, stepN w (a + b) = stepN (stepN w a) b := by
  intro b
  induction b with
  | zero => rfl
  | succ k ih =>
    show stepN w (a + k + 1) = (step (stepN (stepN w a) k)).2
    rw [← ih]
    rfl

/-! ## The busy-window evolution of one action -/

lemma processOwn_active (c : Constants) (tn dt : ℝ) (tank : Tank) (act : ActionDesc)
    (hal : 0 < tank.hp) (hact : tank.activeAction = some act) :
    processOwn c tn dt tank =
      if tn + dt ≥ tank.busyUntil - EPSILON then
        ({ tickEffect c tank act dt with activeAction := none }, true)
      else (tickEffect c tank act dt, false) := by
  unfold processOwn
  rw [if_neg (not_le.mpr hal), hact]
  dsimp only
  rw [(tickEffect_fields c tank act dt).2.2.2.1]

lemma processOwn_inactive (c : Constants) (tn dt : ℝ) (tank : Tank)
    (hact : tank.activeAction = none) : processOwn c tn dt tank = (tank, false) := by
  unfold processOwn
  by_cases hhp : tank.hp ≤ 0
  · rw [if_pos hhp]
  · rw [if_neg hhp, hact]

lemma tickEffect_heading (c : Constants) (tank : Tank) (act : ActionDesc) (dt : ℝ) :
    (tickEffect c tank act dt).headingDeg =
      match act with
      | .turnLeft => normalizeDeg (tank.headingDeg - (c.tankStats tank.tankType).turnRate * dt)
      | .turnRight => normalizeDeg (tank.headingDeg + (c.tankStats tank.tankType).turnRate * dt)
      | _ => tank.headingDeg := by
  cases act <;> rfl

lemma headingIter_succ_eq (c : Constants) (ty : TankType) (act : ActionDesc) (dt h0 : ℝ)
    (j : ℕ) (tank' : Tank) (hh : tank'.headingDeg = headingIter c ty act dt h0 j)
    (hty : tank'.tankType = ty) :
    (tickEffect c tank' act dt).headingDeg = headingIter c ty act dt h0 (j + 1) := by
  rw [tickEffect_heading, hh, hty]
  cases act <;> rfl

/-- While the completion condition keeps failing and the tank stays alive,
the action persists with its `busyUntil`, the heading follows
`headingIter`, and no `actionComplete` event for the slot is emitted. -/
lemma window_iter (w : World) (s : String) (tank : Tank) (act : ActionDesc) (D : ℝ)
    (hnd : w.keys.Nodup) (hget : w.getTank? s = some tank)
    (hact : tank.activeAction = some act) (hbusy : tank.busyUntil = w.t + D) :
    ∀ J : ℕ,
      (∀ i : ℕ, 1 ≤ i → i ≤ J → ¬(D - EPSILON ≤ i * stepDt w)) →
      (∀ j : ℕ, j < J → ∀ tj, (stepN w j).getTank? s = some tj → 0 < tj.hp) →
      ∃ tJ, (stepN w J).getTank? s = some tJ ∧ tJ.activeAction = some act ∧
        tJ.busyUntil = tank.busyUntil ∧ tJ.tankType = tank.tankType ∧
        tJ.headingDeg = headingIter w.constants tank.tankType act (stepDt w)
          tank.headingDeg J ∧
        ∀ j : ℕ, j < J → ¬∃ ty sr, Event.actionComplete s ty sr ∈ (step (stepN w j)).1 := by
  intro J
  induction J with
  | zero =>
    intro _ _
    exact ⟨tank, hget, hact, rfl, rfl, rfl, by intro j hj; cases hj⟩
  | succ J ih =>
    intro hnone halive
    obtain ⟨tJ, hgJ, haJ, hbJ, htyJ, hhJ, hevJ⟩ :=
      ih (fun i h1 h2 => hnone i h1 (Nat.le_succ_of_le h2))
        (fun j hj => halive j (Nat.lt_succ_of_lt hj))
    have hndJ : (stepN w J).keys.Nodup := by
      rw [stepN_keys]
      exact hnd
    obtain ⟨t', hg', hslot', hx', hy', hh', hty', hbu', haa', _, _, hiff', _⟩ :=
      step_tank (stepN w J) s tJ hndJ hgJ
    have halJ : 0 < tJ.hp := halive J (Nat.lt_succ_self J) tJ hgJ
    have hcond : ¬((stepN w J).t + stepDt (stepN w J) ≥ tJ.busyUntil - EPSILON) := by
      rw [stepN_t, stepN_dt, hbJ, hbusy]
      intro hc
      apply hnone (J + 1) (Nat.le_add_left 1 J) (le_refl _)
      push_cast
      push_cast at hc
      linarith
    have hpo := processOwn_active (stepN w J).constants (stepN w J).t
      (stepDt (stepN w J)) tJ act halJ haJ
    rw [if_neg hcond] at hpo
    refine ⟨t', hg', ?_, ?_, ?_, ?_, ?_⟩
    · rw [haa', hpo]
      rw [(tickEffect_fields _ tJ act _).2.2.2.2.2.1]
      exact haJ
    · rw [hbu', hpo]
      rw [(tickEffect_fields _ tJ act _).2.2.2.1]
      exact hbJ
    · rw [hty', hpo]
      rw [(tickEffect_fields _ tJ act _).2.2.1]
      exact htyJ
    · rw [hh', hpo]
      rw [stepN_constants, stepN_dt]
      exact headingIter_succ_eq w.constants tank.tankType act (stepDt w) tank.headingDeg J tJ
        (by rw [← stepN_constants w J, ← stepN_dt w J] at hhJ ⊢; exact hhJ) htyJ
    · intro j hj
      rcases Nat.lt_succ_iff_lt_or_eq.mp hj with hj' | rfl
      · exact hevJ j hj'
      · intro hev
        have := hiff'.mp hev
        rw [hpo] at this
        cases this

/-- On the first tick whose completion condition holds, the action completes:
the event fires, the action is cleared, `busyUntil` survives, and the
per-tick effect was applied one last time. -/
lemma window_completes (w : World) (s : String) (tank : Tank) (act : ActionDesc) (D : ℝ)
    (hnd : w.keys.Nodup) (hget : w.getTank? s = some tank)
    (hact : tank.activeAction = some act) (hbusy : tank.busyUntil = w.t + D)
    (m : ℕ) (hm : 1 ≤ m)
    (hD : D - EPSILON ≤ m * stepDt w)
    (hnone : ∀ i : ℕ, 1 ≤ i → i < m → ¬(D - EPSILON ≤ i * stepDt w))
    (halive : ∀ j : ℕ, j < m → ∀ tj, (stepN w j).getTank? s = some tj → 0 < tj.hp) :
    (∃ ty sr, Event.actionComplete s ty sr ∈ (step (stepN w (m - 1))).1) ∧
      ∃ tm, (stepN w m).getTank? s = some tm ∧ tm.activeAction = none ∧
        tm.busyUntil = tank.busyUntil ∧
        tm.headingDeg = headingIter w.constants tank.tankType act (stepDt w)
          tank.headingDeg m := by
  obtain ⟨tJ, hgJ, haJ, hbJ, htyJ, hhJ, _⟩ :=
    window_iter w s tank act D hnd hget hact hbusy (m - 1)
      (fun i h1 h2 => hnone i h1 (by omega))
      (fun j hj => halive j (by omega))
  have hndJ : (stepN w (m - 1)).keys.Nodup := by
    rw [stepN_keys]
    exact hnd
  obtain ⟨t', hg', hslot', hx', hy', hh', hty', hbu', haa', _, _, hiff', _⟩ :=
    step_tank (stepN w (m - 1)) s tJ hndJ hgJ
  have halJ : 0 < tJ.hp := halive (m - 1) (by omega) tJ hgJ
  have hcond : (stepN w (m - 1)).t + stepDt (stepN w (m - 1)) ≥ tJ.busyUntil - EPSILON := by
    rw [stepN_t, stepN_dt, hbJ, hbusy]
    have hcast : ((m - 1 : ℕ) : ℝ) = (m : ℝ) - 1 := by
      have : (1 : ℕ) ≤ m := hm
      push_cast [Nat.cast_sub this]
      ring
    rw [hcast]
    push_cast at hD ⊢
    linarith
  have hpo := processOwn_active (stepN w (m - 1)).constants (stepN w (m - 1)).t
    (stepDt (stepN w (m - 1))) tJ act halJ haJ
  rw [if_pos hcond] at hpo
  have hstep : stepN w m = (step (stepN w (m - 1))).2 := by
    have : m = (m - 1) + 1 := by omega
    rw [this]
    rfl
  constructor
  · apply hiff'.mpr
    rw [hpo]
  · refine ⟨t', by rw [hstep]; exact hg', ?_, ?_, ?_⟩
    · rw [haa', hpo]
    · rw [hbu', hpo]
      show (tickEffect _ tJ act _).busyUntil = tank.busyUntil
      rw [(tickEffect_fields _ tJ act _).2.2.2.1]
      exact hbJ
    · rw [hh', hpo]
      show (tickEffect _ tJ act _).headingDeg = _
      rw [stepN_constants, stepN_dt]
      have hm1 : m - 1 + 1 = m := by omega
      rw [← hm1]
      exact headingIter_succ_eq w.constants tank.tankType act (stepDt w) tank.headingDeg
        (m - 1) tJ
        (by rw [← stepN_constants w (m - 1), ← stepN_dt w (m - 1)] at hhJ ⊢; exact hhJ) htyJ

/-- Once `activeAction` is cleared it stays cleared under stepping, and no
further `actionComplete` events for the slot are emitted. -/
lemma inactive_iter (w : World) (s : String) (tank : Tank)
    (hnd : w.keys.Nodup) (hget : w.getTank? s = some tank)
    (hact : tank.activeAction = none) :
    ∀ k : ℕ, (∃ t', (stepN w k).getTank? s = some t' ∧ t'.activeAction = none) ∧
      ¬∃ ty sr, Event.actionComplete s ty sr ∈ (step (stepN w k)).1 := by
  intro k
  induction k with
  | zero =>
    refine ⟨⟨tank, hget, hact⟩, ?_⟩
    intro hev
    obtain ⟨_, _, _, _, _, _, _, _, _, _, _, hiff, _⟩ := step_tank w s tank hnd hget
    have := hiff.mp hev
    rw [processOwn_inactive _ _ _ tank hact] at this
    cases this
  | succ k ih =>
    obtain ⟨⟨tk, hgk, hak⟩, _⟩ := ih
    have hndk : (stepN w k).keys.Nodup := by
      rw [stepN_keys]
      exact hnd
    obtain ⟨t', hg', _, _, _, _, _, _, haa', _, _, hiff', _⟩ :=
      step_tank (stepN w k) s tk hndk hgk
    have ha' : t'.activeAction = none := by
      rw [haa', processOwn_inactive _ _ _ tk hak]
      exact hak
    refine ⟨⟨t', hg', ha'⟩, ?_⟩
    intro hev
    have hndk1 : (stepN w (k + 1)).keys.Nodup := by
      rw [stepN_keys]
      exact hnd
    obtain ⟨_, _, _, _, _, _, _, _, _, _, _, hiff'', _⟩ :=
      step_tank (stepN w (k + 1)) s t' (by rw [stepN_keys]; exact hnd) hg'
    have := hiff''.mp hev
    rw [processOwn_inactive _ _ _ t' ha'] at this
    cases this

/-- Claim C4: each starter (turnLeft, turnRight, moveForward, moveBackward,
scan) returns true iff the tank is idle (`world.t ≥ busyUntil − 10⁻⁹`); on
acceptance it sets `busyUntil = world.t + duration` with the duration
`|degrees| / turnRate` for a turn given a degrees argument and
`ACTION_DURATION` otherwise, and records the corresponding `activeAction`;
on refusal the world is returned unchanged. -/
theorem starters_accept_iff_idle (w : World) (s : String) (tank : Tank)
    (hget : w.getTank? s = some tank) : startersContract w s tank := by
  refine ⟨?_, ?_, ?_, ?_, ?_, ?_, ?_, ?_⟩
  · unfold isIdle
    exact ⟨fun h => of_decide_eq_true h, fun h => decide_eq_true h⟩
  · intro d
    unfold turnLeft
    rw [hget]
    dsimp only
    by_cases hid : isIdle tank w.t
    · rw [if_pos hid, if_pos hid]
      rfl
    · rw [if_neg hid, if_neg hid]
  · unfold turnLeft
    rw [hget]
    dsimp only
    by_cases hid : isIdle tank w.t
    · rw [if_pos hid, if_pos hid]
      rfl
    · rw [if_neg hid, if_neg hid]
  · intro d
    unfold turnRight
    rw [hget]
    dsimp only
    by_cases hid : isIdle tank w.t
    · rw [if_pos hid, if_pos hid]
      rfl
    · rw [if_neg hid, if_neg hid]
  · unfold turnRight
    rw [hget]
    dsimp only
    by_cases hid : isIdle tank w.t
    · rw [if_pos hid, if_pos hid]
      rfl
    · rw [if_neg hid, if_neg hid]
  · unfold moveForward
    rw [hget]
    dsimp only
    by_cases hid : isIdle tank w.t
    · rw [if_pos hid, if_pos hid]
      rfl
    · rw [if_neg hid, if_neg hid]
  · unfold moveBackward
    rw [hget]
    dsimp only
    by_cases hid : isIdle tank w.t
    · rw [if_pos hid, if_pos hid]
      rfl
    · rw [if_neg hid, if_neg hid]
  · intro a b
    unfold scan
    rw [hget]
    dsimp only
    by_cases hid : isIdle tank w.t
    · rw [if_pos hid, if_pos hid]
      rfl
    · rw [if_neg hid, if_neg hid]

/-- Witness for C4: the contract instantiated on a concrete idle tank. -/
theorem starters_accept_iff_idle_witness : startersContract w0 "p1" tank0 :=
  starters_accept_iff_idle w0 "p1" tank0 rfl

/-- Claim C10: `shoot` checks neither `hp` nor the busy window — for every
world and slot whose tank has `activeProjectileId = null`, it succeeds and
spawns a projectile. -/
theorem shoot_no_alive_idle_precondition (w : World) (s : String) (tank : Tank)
    (hget : w.getTank? s = some tank) (hfree : tank.activeProjectileId = none) :
    ∃ w', shoot w s = some (true, w') := by
  unfold shoot
  rw [hget]
  dsimp only
  rw [if_neg (by rw [hfree]; exact fun hc => hc rfl)]
  exact ⟨_, rfl⟩

/-- Witness for C10: a tank with `hp = 0` that is mid-way through a busy
window still shoots successfully. -/
theorem shoot_no_alive_idle_precondition_witness :
    (tankDeadBusy.hp = 0 ∧ tankDeadBusy.busyUntil = 50 ∧ wDeadBusy.t = 0 ∧
      tankDeadBusy.activeAction = some .moveForward) ∧
      ∃ w', shoot wDeadBusy "p1" = some (true, w') :=
  ⟨⟨rfl, rfl, rfl, rfl⟩,
    shoot_no_alive_idle_precondition wDeadBusy "p1" tankDeadBusy rfl rfl⟩

/-! ## Owner-clearing lemmas for claim C1 -/

lemma clear_no_new_field (w : World) (q : Projectile) (s : String) (v : ℕ) (t' : Tank)
    (hg : (clearProjectileFromOwner w q).getTank? s = some t')
    (hf : t'.activeProjectileId = some v) :
    ∃ t, w.getTank? s = some t ∧ t.activeProjectileId = some v := by
  unfold clearProjectileFromOwner at hg
  rcases hgo : w.getTank? q.owner with _ | ow
  · rw [hgo] at hg
    exact ⟨t', hg, hf⟩
  · rw [hgo] at hg
    dsimp only at hg
    by_cases hcond : ow.activeProjectileId = some q.id
    · rw [if_pos hcond] at hg
      by_cases hs : s = q.owner
      · subst hs
        rw [getTank?_setTank_self, hgo] at hg
        injection hg with hg'
        rw [← hg'] at hf
        cases hf
      · rw [getTank?_setTank_ne _ _ _ _ hs] at hg
        exact ⟨t', hg, hf⟩
    · rw [if_neg hcond] at hg
      exact ⟨t', hg, hf⟩

lemma despawnGo_no_new_field (L : List Projectile) : ∀ (w : World) (s : String) (v : ℕ)
    (t' : Tank), (despawnGo L w).2.getTank? s = some t' → t'.activeProjectileId = some v →
    ∃ t, w.getTank? s = some t ∧ t.activeProjectileId = some v := by
  induction L with
  | nil => exact fun w s v t' hg hf => ⟨t', hg, hf⟩
  | cons q rest ih =>
    intro w s v t' hg hf
    unfold despawnGo at hg
    by_cases hoob : isOOB w.constants q = true
    · rw [if_pos hoob] at hg
      rcases ih _ s v t' hg hf with ⟨t1, hg1, hf1⟩
      rw [removeProjectile_getTank?] at hg1
      exact clear_no_new_field w q s v t1 hg1 hf1
    · rw [if_neg hoob] at hg
      exact ih w s v t' hg hf

lemma hitGo_no_new_field (rs dm : ℝ) (L : List Projectile) : ∀ (w : World), w.keys.Nodup →
    ∀ (s : String) (v : ℕ) (t' : Tank),
    (hitGo rs dm L w).2.getTank? s = some t' → t'.activeProjectileId = some v →
    ∃ t, w.getTank? s = some t ∧ t.activeProjectileId = some v := by
  induction L with
  | nil => exact fun w _ s v t' hg hf => ⟨t', hg, hf⟩
  | cons q rest ih =>
    intro w hnd s v t' hg hf
    unfold hitGo at hg
    rcases hft : findHitTarget w rs q with _ | pair
    · rw [hft] at hg
      exact ih w hnd s v t' hg hf
    · rcases pair with ⟨targetSlot, target⟩
      rw [hft] at hg
      dsimp only at hg
      rcases findHitTarget_spec w rs q targetSlot target hft with ⟨hmem, _, _⟩
      have hgt : w.getTank? targetSlot = some target := getTank?_of_mem w hnd (_, _) hmem
      set target' : Tank :=
        { target with hp := if target.hp - dm < 0 then 0 else target.hp - dm } with htarget'
      set w1 := w.setTank targetSlot target' with hw1
      have hnd1 : (removeProjectile (clearProjectileFromOwner w1 q) q.id).keys.Nodup := by
        have hk : (removeProjectile (clearProjectileFromOwner w1 q) q.id).keys = w.keys := by
          rw [show (removeProjectile (clearProjectileFromOwner w1 q) q.id).keys
              = (clearProjectileFromOwner w1 q).keys from rfl,
            (clearProjectileFromOwner_frame w1 q).2.2.2, hw1, keys_setTank]
        rw [hk]
        exact hnd
      rcases ih _ hnd1 s v t' hg hf with ⟨t1, hg1, hf1⟩
      rw [removeProjectile_getTank?] at hg1
      rcases clear_no_new_field w1 q s v t1 hg1 hf1 with ⟨t2, hg2, hf2⟩
      by_cases hs : s = targetSlot
      · subst hs
        rw [hw1, getTank?_setTank_self, hgt] at hg2
        injection hg2 with hg2'
        refine ⟨target, hgt, ?_⟩
        rw [← hg2'] at hf2
        rw [htarget'] at hf2
        exact hf2
      · rw [hw1, getTank?_setTank_ne _ _ _ _ hs] at hg2
        exact ⟨t2, hg2, hf2⟩

lemma clear_self_cleared (w : World) (p : Projectile) (t' : Tank)
    (hg : (clearProjectileFromOwner w p).getTank? p.owner = some t') :
    t'.activeProjectileId ≠ some p.id := by
  unfold clearProjectileFromOwner at hg
  rcases hgo : w.getTank? p.owner with _ | ow
  · rw [hgo] at hg
    rw [hgo] at hg
    cases hg
  · rw [hgo] at hg
    dsimp only at hg
    by_cases hcond : ow.activeProjectileId = some p.id
    · rw [if_pos hcond, getTank?_setTank_self, hgo] at hg
      injection hg with hg'
      rw [← hg']
      exact fun hc => Option.noConfusion hc
    · rw [if_neg hcond] at hg
      rw [hgo] at hg
      injection hg with hg'
      rw [← hg']
      exact hcond

/-- After the despawn loop has processed an out-of-bounds projectile, its
owner no longer points at it. -/
lemma despawnGo_owner_cleared (L : List Projectile) : ∀ (w : World) (p : Projectile),
    p ∈ L → isOOB w.constants p = true →
    ∀ t', (despawnGo L w).2.getTank? p.owner = some t' →
      t'.activeProjectileId ≠ some p.id := by
  induction L with
  | nil => intro w p hp; cases hp
  | cons q rest ih =>
    intro w p hp hoobp t' hg hf
    unfold despawnGo at hg
    rcases List.mem_cons.mp hp with rfl | htl
    · rw [if_pos hoobp] at hg
      rcases despawnGo_no_new_field rest _ p.owner p.id t' hg hf with ⟨t1, hg1, hf1⟩
      rw [removeProjectile_getTank?] at hg1
      exact clear_self_cleared w p t1 hg1 hf1
    · by_cases hoob : isOOB w.constants q = true
      · rw [if_pos hoob] at hg
        have hc : isOOB (removeProjectile (clearProjectileFromOwner w q) q.id).constants p
            = true := by
          rw [show (removeProjectile (clearProjectileFromOwner w q) q.id).constants
              = (clearProjectileFromOwner w q).constants from rfl,
            (clearProjectileFromOwner_frame w q).2.1]
          exact hoobp
        exact ih _ p htl hc t' hg hf
      · rw [if_neg hoob] at hg
        exact ih w p htl hoobp t' hg hf

/-- Claim C1: `step` performs apply-actions, projectile motion, boundary
despawn, hit detection, time advance and match-end evaluation in exactly
that order (the events concatenate in phase order); every phase sees the
pre-advance time and `t` grows by exactly `dt = 1/TICK_RATE`; and a
projectile out of bounds after this tick's motion despawns without also
hitting, its owner's projectile slot being cleared. -/
theorem step_phase_order (w : World) :
    step w =
      ((stepApplied w).1.map
          (fun ca => Event.actionComplete ca.slot ca.actionType ca.scanResult) ++
        (stepDespawned w).1 ++ (stepHits w).1 ++ matchEndEvents (stepFinal w),
        stepFinal w) ∧
      (step w).2.t = w.t + 1 / w.constants.TICK_RATE ∧
      (stepApplied w).2.t = w.t ∧ (stepMoved w).t = w.t ∧
      (stepDespawned w).2.t = w.t ∧ (stepHits w).2.t = w.t ∧
      ∀ p ∈ (stepMoved w).projectiles, isOOB w.constants p = true → oobOutcome w p := by
  have ht0 : (stepApplied w).2.t = w.t :=
    (applyGo_frame (stepDt w) (w.tanks.map (fun p : String × Tank => p.1)) w).1
  have ht1 : (stepMoved w).t = w.t := ht0
  have ht2 : (stepDespawned w).2.t = w.t := by
    show (despawnPhase (stepMoved w)).2.t = w.t
    rw [(despawnPhase_frame (stepMoved w)).1]
    exact ht1
  have ht3 : (stepHits w).2.t = w.t := by
    show (hitPhase (stepDespawned w).2).2.t = w.t
    rw [(hitPhase_frame (stepDespawned w).2).1]
    exact ht2
  have hcM : (stepMoved w).constants = w.constants :=
    (applyGo_frame (stepDt w) (w.tanks.map (fun p : String × Tank => p.1)) w).2.1
  have hcD : (stepDespawned w).2.constants = w.constants := by
    show (despawnPhase (stepMoved w)).2.constants = w.constants
    rw [(despawnPhase_frame (stepMoved w)).2.1]
    exact hcM
  refine ⟨step_eq w, step_t w, ht0, ht1, ht2, ht3, ?_⟩
  intro p hp hoob
  have hoobM : isOOB (stepMoved w).constants p = true := by
    rw [hcM]
    exact hoob
  refine ⟨?_, ?_, ?_⟩
  · rw [step_eq]
    apply List.mem_append.mpr
    left
    apply List.mem_append.mpr
    left
    apply List.mem_append.mpr
    right
    exact despawnGo_emits (stepMoved w).projectiles (stepMoved w) p hp hoobM
  · intro o tg dm hmem
    rw [step_eq] at hmem
    simp only [List.mem_append] at hmem
    rcases hmem with ((h0 | h1) | h2) | h3
    · rcases List.mem_map.mp h0 with ⟨ca, _, heq⟩
      cases heq
    · rcases despawnPhase_events_shape (stepMoved w) _ h1 with ⟨pid, o', hsh⟩
      cases hsh
    · rcases hitGo_events_shape _ _ (stepDespawned w).2.projectiles (stepDespawned w).2 _ h2
        with ⟨pid, o', tg', hsh, hpid⟩
      injection hsh with hpid' _ _ _
      rcases List.mem_map.mp hpid with ⟨q, hq, hqid⟩
      exact despawnGo_removes (stepMoved w).projectiles (stepMoved w) p hp hoobM q hq
        (by rw [hqid, ← hpid'])
    · rcases matchEndEvents_shape (stepFinal w) _ h3 with ⟨win, r, hsh⟩
      cases hsh
  · intro hnd t' hg hf
    have hndD : (stepDespawned w).2.keys.Nodup := by
      have hk : (stepDespawned w).2.keys = w.keys := by
        show (despawnPhase (stepMoved w)).2.keys = w.keys
        rw [(despawnPhase_frame (stepMoved w)).2.2]
        exact (applyGo_frame (stepDt w) (w.tanks.map (fun p : String × Tank => p.1)) w).2.2.2.1
      rw [hk]
      exact hnd
    rw [step_eq] at hg
    rcases hitGo_no_new_field _ _ (stepDespawned w).2.projectiles (stepDespawned w).2 hndD
      p.owner p.id t' hg hf with ⟨t1, hg1, hf1⟩
    exact despawnGo_owner_cleared (stepMoved w).projectiles (stepMoved w) p hp hoobM t1 hg1 hf1

lemma wShot_applied : stepApplied wShot = ([], wShot) := by
  show applyGo (stepDt wShot) (wShot.tanks.map (fun p : String × Tank => p.1)) wShot
    = ([], wShot)
  rw [show wShot.tanks.map (fun p : String × Tank => p.1) = ["p1"] from rfl]
  unfold applyGo
  have hps : processSlot (stepDt wShot) "p1" wShot = (none, wShot) := by
    unfold processSlot
    rw [show wShot.getTank? "p1" = some tankShot from rfl]
    dsimp only
    rw [if_neg (show ¬tankShot.hp ≤ 0 from by norm_num [tankShot])]
    rfl
  rw [hps]
  rfl

lemma pMoved_mem : pMoved ∈ (stepMoved wShot).projectiles := by
  rw [show stepMoved wShot = moveProjectiles (stepApplied wShot).2 (stepDt wShot) from rfl,
    wShot_applied]
  show pMoved ∈ [pMoved]
  exact List.mem_singleton.mpr rfl

lemma pMoved_oob : isOOB wShot.constants pMoved = true := by
  unfold isOOB
  have h2 : decide (pMoved.x > wShot.constants.ARENA_WIDTH
      + wShot.constants.PROJECTILE_RADIUS) = true := by
    apply decide_eq_true
    show (5000 : ℝ) + 0 * stepDt wShot > 1200 + 4
    have hdt : stepDt wShot = 1 / 60 := by
      show (1 : ℝ) / CONSTANTS.TICK_RATE = 1 / 60
      norm_num [CONSTANTS]
    rw [hdt]
    norm_num
  rw [h2]
  simp

/-- Witness for C1: in a concrete world whose only projectile ends the
motion phase far outside the arena, the tick emits its `oob` despawn, emits
no hit for it, clears the owner, and advances time by exactly `dt`. -/
theorem step_phase_order_witness :
    oobOutcome wShot pMoved ∧
      (step wShot).2.t = wShot.t + 1 / wShot.constants.TICK_RATE :=
  ⟨(step_phase_order wShot).2.2.2.2.2.2 pMoved pMoved_mem pMoved_oob,
    (step_phase_order wShot).2.1⟩

/-! ## Claim C3 — the scan-arc predicate -/

/-- Claim C3: `isInScanArc` returns false when the squared distance exceeds
`range²`; otherwise true when the positions coincide; otherwise true when
the normalized endpoints agree (full circle); otherwise true iff
`normalize(relBearing − a) ≤ normalize(b − a)` with
`relBearing = normalize(degrees(atan2(dy, dx)) − headingDeg)` and
floor-based real normalization.  In particular, the wrap-around arc
`scan(170, −170)` contains a target due behind a heading-0 scanner while
`scan(−30, 30)` does not. -/
theorem isInScanArc_spec :
    (∀ (scanner : Pose) (target : Pt) (aDeg bDeg range : ℝ),
      isInScanArc scanner target aDeg bDeg range = true ↔
        scanClaimPredicate scanner target aDeg bDeg range) ∧
      isInScanArc ⟨100, 100, 0⟩ ⟨0, 100⟩ 170 (-170) 700 = true ∧
      isInScanArc ⟨100, 100, 0⟩ ⟨0, 100⟩ (-30) 30 700 = false := by
  have hatan : atan2 ((100 : ℝ) - 100) ((0 : ℝ) - 100) = Real.pi := by
    unfold atan2
    rw [Complex.arg_eq_pi_iff]
    constructor
    · show (0 : ℝ) - 100 < 0
      norm_num
    · show (100 : ℝ) - 100 = 0
      norm_num
  have hdeg : atan2 ((100 : ℝ) - 100) ((0 : ℝ) - 100) * (180 / Real.pi) = 180 := by
    rw [hatan]
    field_simp
  refine ⟨?_, ?_, ?_⟩
  · intro scanner target aDeg bDeg range
    simp only [isInScanArc, scanClaimPredicate, normalizeDeg_eq_specNormalize]
    by_cases h1 : (target.x - scanner.x) * (target.x - scanner.x) +
        (target.y - scanner.y) * (target.y - scanner.y) > range * range
    · rw [if_pos h1, if_pos h1]
      simp
    · rw [if_neg h1, if_neg h1]
      by_cases h2 : (target.x - scanner.x) * (target.x - scanner.x) +
          (target.y - scanner.y) * (target.y - scanner.y) = 0
      · have hx : target.x - scanner.x = 0 ∧ target.y - scanner.y = 0 := by
          constructor <;>
            nlinarith [mul_self_nonneg (target.x - scanner.x),
              mul_self_nonneg (target.y - scanner.y)]
        have hco : target.x = scanner.x ∧ target.y = scanner.y :=
          ⟨by linarith [hx.1], by linarith [hx.2]⟩
        rw [if_pos h2, if_pos hco]
        simp
      · have hco : ¬(target.x = scanner.x ∧ target.y = scanner.y) := by
          rintro ⟨hcx, hcy⟩
          exact h2 (by rw [hcx, hcy]; ring)
        rw [if_neg h2, if_neg hco]
        by_cases h3 : specNormalize aDeg = specNormalize bDeg
        · rw [if_pos h3, if_pos h3]
          simp
        · rw [if_neg h3, if_neg h3]
          have hrel : specNormalize (specNormalize
              (atan2 (target.y - scanner.y) (target.x - scanner.x) * (180 / Real.pi))
                - scanner.headingDeg)
              = specNormalize
                (atan2 (target.y - scanner.y) (target.x - scanner.x) * (180 / Real.pi)
                  - scanner.headingDeg) := by
            rw [sub_eq_add_neg, specNormalize_add_left, ← sub_eq_add_neg]
          rw [hrel, decide_eq_true_iff]
  · simp only [isInScanArc, normalizeDeg_eq_specNormalize]
    rw [if_neg (by norm_num), if_neg (by norm_num), hdeg]
    have hb1 : specNormalize (180 : ℝ) = 180 := by
      rw [specNormalize_eval 180 0] <;> norm_num
    have hrel : specNormalize ((180 : ℝ) - Pose.headingDeg ⟨100, 100, 0⟩) = 180 := by
      show specNormalize ((180 : ℝ) - 0) = 180
      rw [show (180 : ℝ) - 0 = 180 by norm_num, hb1]
    have ha : specNormalize (170 : ℝ) = 170 := by
      rw [specNormalize_eval 170 0] <;> norm_num
    have hb : specNormalize (-170 : ℝ) = 190 := by
      rw [specNormalize_eval (-170) (-1)] <;> norm_num
    rw [hb1, hrel, ha, hb]
    rw [if_neg (by norm_num : ¬(170 : ℝ) = 190)]
    have hspan : specNormalize ((190 : ℝ) - 170) = 20 := by
      rw [show (190 : ℝ) - 170 = 20 by norm_num, specNormalize_eval 20 0] <;> norm_num
    have hoff : specNormalize ((180 : ℝ) - 170) = 10 := by
      rw [show (180 : ℝ) - 170 = 10 by norm_num, specNormalize_eval 10 0] <;> norm_num
    rw [hspan, hoff]
    exact decide_eq_true (by norm_num)
  · simp only [isInScanArc, normalizeDeg_eq_specNormalize]
    rw [if_neg (by norm_num), if_neg (by norm_num), hdeg]
    have hb1 : specNormalize (180 : ℝ) = 180 := by
      rw [specNormalize_eval 180 0] <;> norm_num
    have hrel : specNormalize ((180 : ℝ) - Pose.headingDeg ⟨100, 100, 0⟩) = 180 := by
      show specNormalize ((180 : ℝ) - 0) = 180
      rw [show (180 : ℝ) - 0 = 180 by norm_num, hb1]
    have ha : specNormalize (-30 : ℝ) = 330 := by
      rw [specNormalize_eval (-30) (-1)] <;> norm_num
    have hb : specNormalize (30 : ℝ) = 30 := by
      rw [specNormalize_eval 30 0] <;> norm_num
    rw [hb1, hrel, ha, hb]
    rw [if_neg (by norm_num : ¬(330 : ℝ) = 30)]
    have hspan : specNormalize ((30 : ℝ) - 330) = 60 := by
      rw [show (30 : ℝ) - 330 = -300 by norm_num, specNormalize_eval (-300) (-1)] <;> norm_num
    have hoff : specNormalize ((180 : ℝ) - 330) = 210 := by
      rw [show (180 : ℝ) - 330 = -150 by norm_num, specNormalize_eval (-150) (-1)] <;> norm_num
    rw [hspan, hoff]
    exact decide_eq_false (by norm_num)

/-! ## Claim C7 — the action-started watchdog hook (code bug) -/

/-- Claim C7 (code bug): the server `tankApi.js` `timedAction` never invokes
the runner-registered `_onActionStart` watchdog hook — not even for accepted
operations — although `runPlayer.js` registers it precisely to re-arm the
watchdog "every time player code starts a new action", and the browser
`localTankApi.js` ("identical logic") does invoke it after acceptance. -/
theorem server_timedAction_never_triggers_hook (w : World) (s : String) (op : TimedOp)
    (o : TimedCallOutcome) (h : serverTimedAction w s op = some o) :
    o.actionStartTriggered = false ∧
      (∀ (hook : Bool) (w' : World) (s' : String) (op' : TimedOp) (o' : TimedCallOutcome),
        localTimedAction hook w' s' op' = some o' → o'.accepted = true →
        o'.actionStartTriggered = hook) := by
  constructor
  · unfold serverTimedAction at h
    rcases hrs : runStarter op w s with _ | r
    · rw [hrs] at h
      cases h
    · rw [hrs] at h
      simp only [Option.map_some'] at h
      by_cases hacc : r.1 = true
      · rw [if_pos hacc] at h
        injection h with h'
        rw [← h']
      · rw [if_neg hacc] at h
        injection h with h'
        rw [← h']
  · intro hook w' s' op' o' h' hacc'
    unfold localTimedAction at h'
    rcases hrs : runStarter op' w' s' with _ | r
    · rw [hrs] at h'
      cases h'
    · rw [hrs] at h'
      simp only [Option.map_some'] at h'
      by_cases hacc : r.1 = true
      · rw [if_pos hacc] at h'
        injection h' with h''
        rw [← h'']
      · rw [if_neg hacc] at h'
        injection h' with h''
        rw [← h''] at hacc'
        cases hacc'

/-- Witness for C7: an accepted `turnLeft()` on the server API leaves the
watchdog hook un-invoked. -/
theorem server_timedAction_never_triggers_hook_witness :
    c7Outcome.accepted = true ∧ c7Outcome.actionStartTriggered = false := by
  have hidle : isIdle tank0 (0 : ℝ) = true := by
    apply decide_eq_true
    show (0 : ℝ) ≥ tank0.busyUntil - EPSILON
    show (0 : ℝ) ≥ 0 - EPSILON
    rw [EPSILON]
    norm_num
  have h : serverTimedAction w0 "p1" (TimedOp.turnLeft none) = some c7Outcome := by
    unfold serverTimedAction runStarter turnLeft
    rw [show w0.getTank? "p1" = some tank0 from rfl]
    dsimp only
    rw [show w0.t = (0 : ℝ) from rfl, hidle]
    rfl
  exact ⟨rfl,
    (server_timedAction_never_triggers_hook w0 "p1" (TimedOp.turnLeft none) c7Outcome h).1⟩

/-! ## Claim C5 — the one-shot rule -/

/-- Claim C5: `shoot` fails (returning false, world unchanged) iff
`activeProjectileId` is non-null; otherwise it spawns the projectile at
offset `tankRadius + projectileRadius + 1` along the heading with speed
`PROJECTILE_SPEED`, under a fresh id, and records it on the owner; and once
that projectile is removed by the despawn or hit phase of a later tick the
owner's `activeProjectileId` is null again and a subsequent `shoot`
succeeds. -/
theorem shoot_one_projectile_rule (w : World) (s : String) (tank : Tank)
    (hget : w.getTank? s = some tank) :
    (tank.activeProjectileId ≠ none → shoot w s = some (false, w)) ∧
      (tank.activeProjectileId = none → shoot w s = some (true,
        ({ w with
            projectiles := w.projectiles ++
              [{ id := w.idCounter, owner := s,
                 x := tank.x + Real.cos (tank.headingDeg * DEG2RAD) *
                   (w.constants.TANK_RADIUS + w.constants.PROJECTILE_RADIUS + 1),
                 y := tank.y + Real.sin (tank.headingDeg * DEG2RAD) *
                   (w.constants.TANK_RADIUS + w.constants.PROJECTILE_RADIUS + 1),
                 vx := Real.cos (tank.headingDeg * DEG2RAD) * w.constants.PROJECTILE_SPEED,
                 vy := Real.sin (tank.headingDeg * DEG2RAD) * w.constants.PROJECTILE_SPEED }],
            idCounter := w.idCounter + 1 } : World).setTank s
          { tank with activeProjectileId := some w.idCounter })) ∧
      ((∀ q ∈ w.projectiles, q.id < w.idCounter) →
        ∀ q ∈ w.projectiles, q.id ≠ w.idCounter) ∧
      (∀ pid : ℕ, w.keys.Nodup → tank.activeProjectileId = some pid →
        pid ∈ w.projectiles.map (·.id) →
        (∀ q ∈ w.projectiles, q.id = pid → q.owner = s) →
        ∀ t', (step w).2.getTank? s = some t' →
          ((pid ∈ (step w).2.projectiles.map (·.id) ∧ t'.activeProjectileId = some pid) ∨
            (pid ∉ (step w).2.projectiles.map (·.id) ∧ t'.activeProjectileId = none ∧
              ∃ w'', shoot (step w).2 s = some (true, w'')))) := by
  refine ⟨?_, ?_, ?_, ?_⟩
  · intro hfull
    unfold shoot
    rw [hget]
    dsimp only
    rw [if_pos hfull]
  · intro hfree
    exact shoot_free w s tank hget hfree
  · intro hlt q hq
    exact Nat.ne_of_lt (hlt q hq)
  · intro pid hnd hf hmem hown t' hget'
    have htr : pidTracked pid s (step w).2 :=
      pidTracked_step w s pid hnd hown (Or.inl ⟨tank, hget, hf, hmem⟩)
    rcases htr with ⟨t, hg, hfa, hmema⟩ | ⟨t, hg, hfa, hmema⟩
    · rw [hget'] at hg
      injection hg with hg'
      exact Or.inl ⟨hmema, by rw [hg']; exact hfa⟩
    · rw [hget'] at hg
      injection hg with hg'
      refine Or.inr ⟨hmema, by rw [hg']; exact hfa, ?_⟩
      exact ⟨_, shoot_free (step w).2 s t' hget' (by rw [hg']; exact hfa)⟩

/-- Witness for C5: a free tank's shot succeeds with the spawned projectile,
and a second immediate shot fails with the world unchanged. -/
theorem shoot_one_projectile_rule_witness :
    shoot w0 "p1" = some (true,
      ({ w0 with
          projectiles := w0.projectiles ++
            [{ id := w0.idCounter, owner := "p1",
               x := tank0.x + Real.cos (tank0.headingDeg * DEG2RAD) *
                 (w0.constants.TANK_RADIUS + w0.constants.PROJECTILE_RADIUS + 1),
               y := tank0.y + Real.sin (tank0.headingDeg * DEG2RAD) *
                 (w0.constants.TANK_RADIUS + w0.constants.PROJECTILE_RADIUS + 1),
               vx := Real.cos (tank0.headingDeg * DEG2RAD) * w0.constants.PROJECTILE_SPEED,
               vy := Real.sin (tank0.headingDeg * DEG2RAD) * w0.constants.PROJECTILE_SPEED }],
          idCounter := w0.idCounter + 1 } : World).setTank "p1"
        { tank0 with activeProjectileId := some w0.idCounter }) ∧
      shoot wShot "p1" = some (false, wShot) :=
  ⟨(shoot_one_projectile_rule w0 "p1" tank0 rfl).2.1 rfl,
    (shoot_one_projectile_rule wShot "p1" tankShot rfl).1 (by
      intro hc
      exact Option.noConfusion hc)⟩

/-- C2: a timed action accepted at world time `t = n·dt` with duration `D`
(`busyUntil = t + D`), while the tank stays alive, completes during exactly
the first later tick `m` with `m·dt ≥ D − ε` (relative tick count; the
action is cleared afterwards), and when `D = k·dt` exactly, that tick is
`m = k`. -/
theorem action_duration_law (w : World) (s : String) (tank : Tank) (act : ActionDesc)
    (D : ℝ) (n : ℕ)
    (hnd : w.keys.Nodup)
    (_ht : w.t = n * stepDt w)
    (hget : w.getTank? s = some tank)
    (hact : tank.activeAction = some act)
    (hbusy : tank.busyUntil = w.t + D)
    (heps : EPSILON < stepDt w)
    (m : ℕ) (hm : 1 ≤ m)
    (halive : ∀ j : ℕ, j < m → ∀ tj, (stepN w j).getTank? s = some tj → 0 < tj.hp) :
    (completesOn w s m ↔
      (D - EPSILON ≤ m * stepDt w ∧
        ∀ i : ℕ, 1 ≤ i → i < m → ¬(D - EPSILON ≤ i * stepDt w))) ∧
    (completesOn w s m →
      ∀ tm, (stepN w m).getTank? s = some tm → tm.activeAction = none) ∧
    (∀ k : ℕ, 1 ≤ k → D = k * stepDt w → (completesOn w s m ↔ m = k)) := by
  have heps0 : (0 : ℝ) < EPSILON := by norm_num [EPSILON]
  have hdt0 : 0 < stepDt w := lt_trans heps0 heps
  have hmpr : (D - EPSILON ≤ m * stepDt w ∧
      ∀ i : ℕ, 1 ≤ i → i < m → ¬(D - EPSILON ≤ i * stepDt w)) → completesOn w s m := by
    rintro ⟨hD, hnone⟩
    exact (window_completes w s tank act D hnd hget hact hbusy m hm hD hnone halive).1
  have hmp : completesOn w s m → (D - EPSILON ≤ m * stepDt w ∧
      ∀ i : ℕ, 1 ≤ i → i < m → ¬(D - EPSILON ≤ i * stepDt w)) := by
    intro hc
    by_contra hcon
    rw [not_and_or] at hcon
    rcases hcon with hA | hB
    · have hnone' : ∀ i : ℕ, 1 ≤ i → i ≤ m → ¬(D - EPSILON ≤ i * stepDt w) := by
        intro i _ h2 hle
        apply hA
        have hcast : (i : ℝ) ≤ (m : ℝ) := by exact_mod_cast h2
        have := mul_le_mul_of_nonneg_right hcast (le_of_lt hdt0)
        linarith
      obtain ⟨_, _, _, _, _, _, hev⟩ :=
        window_iter w s tank act D hnd hget hact hbusy m hnone' (fun j hj => halive j hj)
      exact hev (m - 1) (by omega) hc
    · push_neg at hB
      obtain ⟨i, h1i, him, hDi⟩ := hB
      have hex : ∃ i : ℕ, 1 ≤ i ∧ D - EPSILON ≤ i * stepDt w := ⟨i, h1i, hDi⟩
      haveI : DecidablePred (fun i : ℕ => 1 ≤ i ∧ D - EPSILON ≤ i * stepDt w) :=
        fun _ => Classical.propDecidable _
      have hP0 := Nat.find_spec hex
      have hi0m : Nat.find hex < m :=
        lt_of_le_of_lt (Nat.find_min' hex ⟨h1i, hDi⟩) him
      have h1i0 : 1 ≤ Nat.find hex := hP0.1
      have hnone0 : ∀ i' : ℕ, 1 ≤ i' → i' < Nat.find hex →
          ¬(D - EPSILON ≤ i' * stepDt w) := by
        intro i' h1 h2 hle
        exact Nat.find_min hex h2 ⟨h1, hle⟩
      obtain ⟨_, ti0, hgti0, hati0, _, _⟩ :=
        window_completes w s tank act D hnd hget hact hbusy (Nat.find hex) h1i0 hP0.2
          hnone0 (fun j hj => halive j (lt_trans hj hi0m))
      have hnd0 : (stepN w (Nat.find hex)).keys.Nodup := by
        rw [stepN_keys]
        exact hnd
      have hno := (inactive_iter (stepN w (Nat.find hex)) s ti0 hnd0 hgti0 hati0
        (m - 1 - Nat.find hex)).2
      have hrw : stepN (stepN w (Nat.find hex)) (m - 1 - Nat.find hex) = stepN w (m - 1) := by
        rw [← stepN_add]
        congr 1
        omega
      rw [hrw] at hno
      exact hno hc
  refine ⟨⟨hmp, hmpr⟩, ?_, ?_⟩
  · intro hc tm hgtm
    obtain ⟨hD, hnone⟩ := hmp hc
    obtain ⟨_, tm', hgtm', hatm', _, _⟩ :=
      window_completes w s tank act D hnd hget hact hbusy m hm hD hnone halive
    rw [hgtm] at hgtm'
    injection hgtm' with h
    rw [h]
    exact hatm'
  · intro k hk hD
    constructor
    · intro hc
      obtain ⟨hle, hnone⟩ := hmp hc
      by_contra hne
      rcases Nat.lt_or_ge m k with hlt | hge
      · rw [hD] at hle
        have h2 : (m : ℝ) + 1 ≤ (k : ℝ) := by exact_mod_cast hlt
        have hc1 : (0 : ℝ) ≤ ((k : ℝ) - m - 1) * stepDt w :=
          mul_nonneg (by linarith) (le_of_lt hdt0)
        nlinarith [hc1, heps, hle]
      · have hklt : k < m := by omega
        apply hnone k hk hklt
        rw [hD]
        linarith
    · intro heq
      subst heq
      apply hmpr
      constructor
      · rw [hD]
        linarith
      · intro i h1 h2 hle
        rw [hD] at hle
        have h2' : (i : ℝ) + 1 ≤ (m : ℝ) := by exact_mod_cast h2
        have hc1 : (0 : ℝ) ≤ ((m : ℝ) - i - 1) * stepDt w :=
          mul_nonneg (by linarith) (le_of_lt hdt0)
        nlinarith [hc1, heps, hle]

theorem action_duration_law_witness : completesOn wC2 "p1" 1 :=
  ((action_duration_law wC2 "p1" tankC2 .turnLeft (stepDt wC2) 0
    (by simp [World.keys, wC2])
    (by simp [wC2])
    (by rfl)
    (by rfl)
    (by norm_num [wC2, tankC2, stepDt, CONSTANTS])
    (by norm_num [EPSILON, stepDt, wC2, CONSTANTS])
    1 le_rfl
    (by
      intro j hj tj hgt
      have hj0 : j = 0 := by omega
      subst hj0
      rw [show stepN wC2 0 = wC2 from rfl] at hgt
      rw [show wC2.getTank? "p1" = some tankC2 from rfl] at hgt
      injection hgt with h
      rw [← h]
      norm_num [tankC2])).2.2 1 le_rfl (by push_cast; ring)).mpr rfl

/-! ## Claim C9 — turn rotation is quantized to whole ticks -/

lemma headingIter_turnLeft (c : Constants) (ty : TankType) (dt h0 : ℝ) :
    ∀ j : ℕ, 1 ≤ j →
      headingIter c ty .turnLeft dt h0 j =
        normalizeDeg (h0 - j * ((c.tankStats ty).turnRate * dt)) := by
  intro j
  induction j with
  | zero => intro h; exact absurd h (by omega)
  | succ j ih =>
    intro _
    show normalizeDeg (headingIter c ty .turnLeft dt h0 j - (c.tankStats ty).turnRate * dt) = _
    rcases Nat.eq_zero_or_pos j with rfl | hj
    · show normalizeDeg (h0 - (c.tankStats ty).turnRate * dt) = _
      congr 1
      push_cast
      ring
    · rw [ih hj]
      simp only [normalizeDeg_eq_specNormalize]
      rw [sub_eq_add_neg (specNormalize (h0 - (j : ℝ) * ((c.tankStats ty).turnRate * dt)))
          ((c.tankStats ty).turnRate * dt),
        specNormalize_add_left]
      congr 1
      push_cast
      ring

lemma headingIter_turnRight (c : Constants) (ty : TankType) (dt h0 : ℝ) :
    ∀ j : ℕ, 1 ≤ j →
      headingIter c ty .turnRight dt h0 j =
        normalizeDeg (h0 + j * ((c.tankStats ty).turnRate * dt)) := by
  intro j
  induction j with
  | zero => intro h; exact absurd h (by omega)
  | succ j ih =>
    intro _
    show normalizeDeg (headingIter c ty .turnRight dt h0 j + (c.tankStats ty).turnRate * dt) = _
    rcases Nat.eq_zero_or_pos j with rfl | hj
    · show normalizeDeg (h0 + (c.tankStats ty).turnRate * dt) = _
      congr 1
      push_cast
      ring
    · rw [ih hj]
      simp only [normalizeDeg_eq_specNormalize]
      rw [specNormalize_add_left]
      congr 1
      push_cast
      ring

/-- After a `turnLeft` of duration `D` is committed on the tank, the busy
window runs for exactly the ticks up to the first `k` whose completion
condition holds, each tick rotating by `turnRate·dt`. -/
lemma turnLaw_left (w : World) (s : String) (tank : Tank) (D : ℝ)
    (hnd : w.keys.Nodup) (hget : w.getTank? s = some tank)
    (k : ℕ) (hk : 1 ≤ k)
    (hD : D - EPSILON ≤ k * stepDt w)
    (hnone : ∀ i : ℕ, 1 ≤ i → i < k → ¬(D - EPSILON ≤ i * stepDt w))
    (halive : ∀ j : ℕ, j < k → ∀ tj,
      (stepN (w.setTank s (beginAction tank w.t D .turnLeft)) j).getTank? s = some tj →
      0 < tj.hp) :
    (∃ ty sr, Event.actionComplete s ty sr ∈
      (step (stepN (w.setTank s (beginAction tank w.t D .turnLeft)) (k - 1))).1) ∧
    (∃ tk, (stepN (w.setTank s (beginAction tank w.t D .turnLeft)) k).getTank? s = some tk ∧
      tk.activeAction = none ∧
      tk.headingDeg = normalizeDeg (tank.headingDeg -
        k * ((w.constants.tankStats tank.tankType).turnRate * stepDt w))) ∧
    (∀ j : ℕ, 1 ≤ j → j < k → ∀ tj,
      (stepN (w.setTank s (beginAction tank w.t D .turnLeft)) j).getTank? s = some tj →
      tj.activeAction = some .turnLeft ∧
      tj.headingDeg = normalizeDeg (tank.headingDeg -
        j * ((w.constants.tankStats tank.tankType).turnRate * stepDt w))) := by
  have hnd' : (w.setTank s (beginAction tank w.t D .turnLeft)).keys.Nodup := by
    rw [keys_setTank]
    exact hnd
  have hget' : (w.setTank s (beginAction tank w.t D .turnLeft)).getTank? s =
      some (beginAction tank w.t D .turnLeft) := by
    rw [getTank?_setTank_self, hget]
    rfl
  obtain ⟨hev, tk, hgtk, hatk, _, hhtk⟩ :=
    window_completes (w.setTank s (beginAction tank w.t D .turnLeft)) s
      (beginAction tank w.t D .turnLeft) .turnLeft D hnd' hget' rfl rfl k hk hD hnone halive
  refine ⟨hev, ⟨tk, hgtk, hatk, ?_⟩, ?_⟩
  · refine hhtk.trans ?_
    rw [headingIter_turnLeft _ _ _ _ k hk]
    rfl
  · intro j h1j hjk tj hgtj
    obtain ⟨tJ, hgJ, haJ, _, _, hhJ, _⟩ :=
      window_iter (w.setTank s (beginAction tank w.t D .turnLeft)) s
        (beginAction tank w.t D .turnLeft) .turnLeft D hnd' hget' rfl rfl j
        (fun i hi1 hij => hnone i hi1 (lt_of_le_of_lt hij hjk))
        (fun j' hj' _ => halive j' (lt_trans hj' hjk) _)
    rw [hgtj] at hgJ
    injection hgJ with h
    subst h
    refine ⟨haJ, ?_⟩
    refine hhJ.trans ?_
    rw [headingIter_turnLeft _ _ _ _ j h1j]
    rfl

/-- Mirror of `turnLaw_left` for `turnRight`. -/
lemma turnLaw_right (w : World) (s : String) (tank : Tank) (D : ℝ)
    (hnd : w.keys.Nodup) (hget : w.getTank? s = some tank)
    (k : ℕ) (hk : 1 ≤ k)
    (hD : D - EPSILON ≤ k * stepDt w)
    (hnone : ∀ i : ℕ, 1 ≤ i → i < k → ¬(D - EPSILON ≤ i * stepDt w))
    (halive : ∀ j : ℕ, j < k → ∀ tj,
      (stepN (w.setTank s (beginAction tank w.t D .turnRight)) j).getTank? s = some tj →
      0 < tj.hp) :
    (∃ ty sr, Event.actionComplete s ty sr ∈
      (step (stepN (w.setTank s (beginAction tank w.t D .turnRight)) (k - 1))).1) ∧
    (∃ tk, (stepN (w.setTank s (beginAction tank w.t D .turnRight)) k).getTank? s = some tk ∧
      tk.activeAction = none ∧
      tk.headingDeg = normalizeDeg (tank.headingDeg +
        k * ((w.constants.tankStats tank.tankType).turnRate * stepDt w))) ∧
    (∀ j : ℕ, 1 ≤ j → j < k → ∀ tj,
      (stepN (w.setTank s (beginAction tank w.t D .turnRight)) j).getTank? s = some tj →
      tj.activeAction = some .turnRight ∧
      tj.headingDeg = normalizeDeg (tank.headingDeg +
        j * ((w.constants.tankStats tank.tankType).turnRate * stepDt w))) := by
  have hnd' : (w.setTank s (beginAction tank w.t D .turnRight)).keys.Nodup := by
    rw [keys_setTank]
    exact hnd
  have hget' : (w.setTank s (beginAction tank w.t D .turnRight)).getTank? s =
      some (beginAction tank w.t D .turnRight) := by
    rw [getTank?_setTank_self, hget]
    rfl
  obtain ⟨hev, tk, hgtk, hatk, _, hhtk⟩ :=
    window_completes (w.setTank s (beginAction tank w.t D .turnRight)) s
      (beginAction tank w.t D .turnRight) .turnRight D hnd' hget' rfl rfl k hk hD hnone halive
  refine ⟨hev, ⟨tk, hgtk, hatk, ?_⟩, ?_⟩
  · refine hhtk.trans ?_
    rw [headingIter_turnRight _ _ _ _ k hk]
    rfl
  · intro j h1j hjk tj hgtj
    obtain ⟨tJ, hgJ, haJ, _, _, hhJ, _⟩ :=
      window_iter (w.setTank s (beginAction tank w.t D .turnRight)) s
        (beginAction tank w.t D .turnRight) .turnRight D hnd' hget' rfl rfl j
        (fun i hi1 hij => hnone i hi1 (lt_of_le_of_lt hij hjk))
        (fun j' hj' _ => halive j' (lt_trans hj' hjk) _)
    rw [hgtj] at hgJ
    injection hgJ with h
    subst h
    refine ⟨haJ, ?_⟩
    refine hhJ.trans ?_
    rw [headingIter_turnRight _ _ _ _ j h1j]
    rfl

/-- C9: turn rotation is quantized to whole ticks of `turnRate·dt`: a
negative `degrees` argument behaves exactly like its absolute value (same
direction, `|d|`-scaled duration); `turnLeft(0)`/`turnRight(0)` are
accepted and still rotate the tank by a full `turnRate·dt`; and for every
accepted turn, completion happens on the first tick `k` with
`k·dt ≥ |d|/turnRate − ε` and the total rotation is exactly
`k·turnRate·dt` — the requested angle rounded up to a whole number of
ticks rather than the exact requested angle. -/
theorem turn_rotation_quantized :
    (∀ (w : World) (s : String) (d : ℝ),
      turnLeft w s (some d) = turnLeft w s (some (-d)) ∧
      turnRight w s (some d) = turnRight w s (some (-d))) ∧
    (∀ (w : World) (s : String) (tank : Tank),
      w.keys.Nodup → w.getTank? s = some tank → isIdle tank w.t = true →
      0 < tank.hp → EPSILON < stepDt w → zeroTurn w s tank) ∧
    (∀ (w : World) (s : String) (tank : Tank) (d : ℝ) (w' : World),
      w.keys.Nodup → w.getTank? s = some tank → EPSILON < stepDt w →
      turnLeft w s (some d) = some (true, w') →
      turnQuantConclusion w w' s tank d (-1)) ∧
    (∀ (w : World) (s : String) (tank : Tank) (d : ℝ) (w' : World),
      w.keys.Nodup → w.getTank? s = some tank → EPSILON < stepDt w →
      turnRight w s (some d) = some (true, w') →
      turnQuantConclusion w w' s tank d 1) := by
  have heps0 : (0 : ℝ) < EPSILON := by norm_num [EPSILON]
  refine ⟨?_, ?_, ?_, ?_⟩
  · intro w s d
    constructor
    · unfold turnLeft
      cases hg : w.getTank? s with
      | none => rfl
      | some tank =>
        have habs : turnDuration w.constants tank (some (-d)) =
            turnDuration w.constants tank (some d) := by
          unfold turnDuration
          dsimp only
          rw [abs_neg]
        dsimp only
        rw [habs]
    · unfold turnRight
      cases hg : w.getTank? s with
      | none => rfl
      | some tank =>
        have habs : turnDuration w.constants tank (some (-d)) =
            turnDuration w.constants tank (some d) := by
          unfold turnDuration
          dsimp only
          rw [abs_neg]
        dsimp only
        rw [habs]
  · intro w s tank hnd hget hidle hhp heps
    have hdt0 : 0 < stepDt w := lt_trans heps0 heps
    have hD0 : turnDuration w.constants tank (some 0) = 0 := by
      unfold turnDuration
      simp
    have haccL : turnLeft w s (some 0) = some (true, w.setTank s
        (beginAction tank w.t (turnDuration w.constants tank (some 0)) .turnLeft)) := by
      unfold turnLeft
      rw [hget]
      dsimp only
      rw [if_pos hidle]
    have haccR : turnRight w s (some 0) = some (true, w.setTank s
        (beginAction tank w.t (turnDuration w.constants tank (some 0)) .turnRight)) := by
      unfold turnRight
      rw [hget]
      dsimp only
      rw [if_pos hidle]
    have h1D : turnDuration w.constants tank (some 0) - EPSILON ≤ (1 : ℕ) * stepDt w := by
      rw [hD0]
      push_cast
      linarith
    have h1none : ∀ i : ℕ, 1 ≤ i → i < 1 →
        ¬(turnDuration w.constants tank (some 0) - EPSILON ≤ i * stepDt w) := by
      intro i h1 h2
      exact absurd h2 (by omega)
    have halL : ∀ j : ℕ, j < 1 → ∀ tj,
        (stepN (w.setTank s (beginAction tank w.t
          (turnDuration w.constants tank (some 0)) .turnLeft)) j).getTank? s = some tj →
        0 < tj.hp := by
      intro j hj tj hgt
      have hj0 : j = 0 := by omega
      subst hj0
      rw [show stepN (w.setTank s (beginAction tank w.t
          (turnDuration w.constants tank (some 0)) .turnLeft)) 0 =
        w.setTank s (beginAction tank w.t
          (turnDuration w.constants tank (some 0)) .turnLeft) from rfl,
        getTank?_setTank_self, hget, Option.map_some'] at hgt
      injection hgt with h
      rw [← h]
      exact hhp
    have halR : ∀ j : ℕ, j < 1 → ∀ tj,
        (stepN (w.setTank s (beginAction tank w.t
          (turnDuration w.constants tank (some 0)) .turnRight)) j).getTank? s = some tj →
        0 < tj.hp := by
      intro j hj tj hgt
      have hj0 : j = 0 := by omega
      subst hj0
      rw [show stepN (w.setTank s (beginAction tank w.t
          (turnDuration w.constants tank (some 0)) .turnRight)) 0 =
        w.setTank s (beginAction tank w.t
          (turnDuration w.constants tank (some 0)) .turnRight) from rfl,
        getTank?_setTank_self, hget, Option.map_some'] at hgt
      injection hgt with h
      rw [← h]
      exact hhp
    obtain ⟨_, ⟨tkL, hgL, haL, hhL⟩, _⟩ :=
      turnLaw_left w s tank (turnDuration w.constants tank (some 0)) hnd hget 1 le_rfl
        h1D h1none halL
    obtain ⟨_, ⟨tkR, hgR, haR, hhR⟩, _⟩ :=
      turnLaw_right w s tank (turnDuration w.constants tank (some 0)) hnd hget 1 le_rfl
        h1D h1none halR
    refine ⟨haccL, haccR, ⟨tkL, hgL, haL, ?_⟩, ⟨tkR, hgR, haR, ?_⟩⟩
    · refine hhL.trans ?_
      congr 1
      push_cast
      ring
    · refine hhR.trans ?_
      congr 1
      push_cast
      ring
  · intro w s tank d w' hnd hget heps hacc
    unfold turnLeft at hacc
    rw [hget] at hacc
    dsimp only at hacc
    by_cases hid : isIdle tank w.t = true
    · rw [if_pos hid] at hacc
      injection hacc with h
      have hw' : w.setTank s (beginAction tank w.t
          (turnDuration w.constants tank (some d)) .turnLeft) = w' := congrArg Prod.snd h
      subst hw'
      intro k hk hD hnone halive
      obtain ⟨_, ⟨tk, hgtk, hatk, hhtk⟩, _⟩ :=
        turnLaw_left w s tank (|d| / (w.constants.tankStats tank.tankType).turnRate)
          hnd hget k hk hD hnone halive
      refine ⟨tk, hgtk, hatk, ?_⟩
      refine hhtk.trans ?_
      congr 1
      push_cast
      ring
    · rw [if_neg hid] at hacc
      injection hacc with h
      have hb : false = true := congrArg Prod.fst h
      exact Bool.noConfusion hb
  · intro w s tank d w' hnd hget heps hacc
    unfold turnRight at hacc
    rw [hget] at hacc
    dsimp only at hacc
    by_cases hid : isIdle tank w.t = true
    · rw [if_pos hid] at hacc
      injection hacc with h
      have hw' : w.setTank s (beginAction tank w.t
          (turnDuration w.constants tank (some d)) .turnRight) = w' := congrArg Prod.snd h
      subst hw'
      intro k hk hD hnone halive
      obtain ⟨_, ⟨tk, hgtk, hatk, hhtk⟩, _⟩ :=
        turnLaw_right w s tank (|d| / (w.constants.tankStats tank.tankType).turnRate)
          hnd hget k hk hD hnone halive
      refine ⟨tk, hgtk, hatk, ?_⟩
      refine hhtk.trans ?_
      congr 1
      push_cast
      ring
    · rw [if_neg hid] at hacc
      injection hacc with h
      have hb : false = true := congrArg Prod.fst h
      exact Bool.noConfusion hb

theorem turn_rotation_quantized_witness : zeroTurn w0 "p1" tank0 :=
  turn_rotation_quantized.2.1 w0 "p1" tank0
    (by simp [World.keys, w0])
    rfl
    (by simp only [isIdle, w0, tank0]; norm_num [EPSILON])
    (by norm_num [tank0])
    (by norm_num [EPSILON, stepDt, w0, CONSTANTS])

/-- Common acceptance shape of the five timed-action starters. -/
lemma starterCore_shape (w : World) (s : String) (b : Bool) (w' : World)
    (dur : Tank → ℝ) (act : ActionDesc)
    (hacc : (match w.getTank? s with
      | none => none
      | some tank =>
        if isIdle tank w.t then
          some (true, w.setTank s (beginAction tank w.t (dur tank) act))
        else some (false, w)) = some (b, w')) :
    w' = w ∨ ∃ tank, w.getTank? s = some tank ∧
      w' = w.setTank s (beginAction tank w.t (dur tank) act) := by
  cases hg : w.getTank? s with
  | none => rw [hg] at hacc; cases hacc
  | some tank =>
    rw [hg] at hacc
    dsimp only at hacc
    by_cases hid : isIdle tank w.t = true
    · rw [if_pos hid] at hacc
      injection hacc with h
      exact .inr ⟨tank, rfl, (congrArg Prod.snd h).symm⟩
    · rw [if_neg hid] at hacc
      injection hacc with h
      exact .inl (congrArg Prod.snd h).symm

lemma turnLeft_shape (w : World) (s : String) (d : Option ℝ) (b : Bool) (w' : World)
    (hacc : turnLeft w s d = some (b, w')) :
    w' = w ∨ ∃ tank, w.getTank? s = some tank ∧
      w' = w.setTank s (beginAction tank w.t (turnDuration w.constants tank d) .turnLeft) :=
  starterCore_shape w s b w' (fun tank => turnDuration w.constants tank d) .turnLeft hacc

lemma turnRight_shape (w : World) (s : String) (d : Option ℝ) (b : Bool) (w' : World)
    (hacc : turnRight w s d = some (b, w')) :
    w' = w ∨ ∃ tank, w.getTank? s = some tank ∧
      w' = w.setTank s (beginAction tank w.t (turnDuration w.constants tank d) .turnRight) :=
  starterCore_shape w s b w' (fun tank => turnDuration w.constants tank d) .turnRight hacc

lemma moveForward_shape (w : World) (s : String) (b : Bool) (w' : World)
    (hacc : moveForward w s = some (b, w')) :
    w' = w ∨ ∃ tank, w.getTank? s = some tank ∧
      w' = w.setTank s (beginAction tank w.t w.constants.ACTION_DURATION .moveForward) :=
  starterCore_shape w s b w' (fun _ => w.constants.ACTION_DURATION) .moveForward hacc

lemma moveBackward_shape (w : World) (s : String) (b : Bool) (w' : World)
    (hacc : moveBackward w s = some (b, w')) :
    w' = w ∨ ∃ tank, w.getTank? s = some tank ∧
      w' = w.setTank s (beginAction tank w.t w.constants.ACTION_DURATION .moveBackward) :=
  starterCore_shape w s b w' (fun _ => w.constants.ACTION_DURATION) .moveBackward hacc

lemma scan_shape (w : World) (s : String) (aDeg bDeg : ℝ) (b : Bool) (w' : World)
    (hacc : scan w s aDeg bDeg = some (b, w')) :
    w' = w ∨ ∃ tank, w.getTank? s = some tank ∧
      w' = w.setTank s (beginAction tank w.t w.constants.ACTION_DURATION (.scan aDeg bDeg)) :=
  starterCore_shape w s b w' (fun _ => w.constants.ACTION_DURATION) (.scan aDeg bDeg) hacc

lemma shoot_shape (w : World) (s : String) (b : Bool) (w' : World)
    (hacc : shoot w s = some (b, w')) :
    w' = w ∨ ∃ tank, w.getTank? s = some tank ∧
      w' = { w.setTank s { tank with activeProjectileId := some w.idCounter } with
        projectiles := w.projectiles ++
          [{ id := w.idCounter, owner := s,
             x := tank.x + Real.cos (tank.headingDeg * DEG2RAD) *
               (w.constants.TANK_RADIUS + w.constants.PROJECTILE_RADIUS + 1),
             y := tank.y + Real.sin (tank.headingDeg * DEG2RAD) *
               (w.constants.TANK_RADIUS + w.constants.PROJECTILE_RADIUS + 1),
             vx := Real.cos (tank.headingDeg * DEG2RAD) * w.constants.PROJECTILE_SPEED,
             vy := Real.sin (tank.headingDeg * DEG2RAD) * w.constants.PROJECTILE_SPEED }],
        idCounter := w.idCounter + 1 } := by
  unfold shoot at hacc
  cases hg : w.getTank? s with
  | none => rw [hg] at hacc; cases hacc
  | some tank =>
    rw [hg] at hacc
    dsimp only at hacc
    by_cases hfree : tank.activeProjectileId ≠ none
    · rw [if_pos hfree] at hacc
      injection hacc with h
      exact .inl (congrArg Prod.snd h).symm
    · rw [if_neg hfree] at hacc
      injection hacc with h
      exact .inr ⟨tank, rfl, (congrArg Prod.snd h).symm⟩

lemma spawnTanks_keys (c : Constants) (ao : ℝ) (n : ℕ) :
    ∀ (pl : List (String × TankType)) (i : ℕ),
      (spawnTanks c ao n i pl).map Prod.fst = pl.map Prod.fst := by
  intro pl
  induction pl with
  | nil => intro i; rfl
  | cons hd tl ih =>
    intro i
    simp only [spawnTanks, List.map_cons]
    rw [ih (i + 1)]

lemma spawnTanks_tank_spec (c : Constants) (ao : ℝ) (n : ℕ) :
    ∀ (pl : List (String × TankType)) (i : ℕ) (p : String × Tank),
      p ∈ spawnTanks c ao n i pl →
      p.2.busyUntil = 0 ∧ p.2.activeAction = none ∧
        p.2.hp = (c.tankStats p.2.tankType).hp ∧
        ∃ angle : ℝ,
          p.2.x = c.ARENA_WIDTH / 2 +
            Real.cos angle * (min (c.ARENA_WIDTH / 2) (c.ARENA_HEIGHT / 2) * 0.55) ∧
          p.2.y = c.ARENA_HEIGHT / 2 +
            Real.sin angle * (min (c.ARENA_WIDTH / 2) (c.ARENA_HEIGHT / 2) * 0.55) := by
  intro pl
  induction pl with
  | nil =>
    intro i p hp
    simp [spawnTanks] at hp
  | cons hd tl ih =>
    intro i p hp
    simp only [spawnTanks] at hp
    rcases List.mem_cons.mp hp with rfl | hmem
    · exact ⟨rfl, rfl, rfl, ⟨ao + 2 * Real.pi * i / n, rfl, rfl⟩⟩
    · exact ih (i + 1) p hmem

lemma createWorld_keys (seed : ℤ) (c : Constants) (players : List (String × TankType)) :
    (createWorld seed c players).keys =
      ((if players.isEmpty then [("p1", TankType.light), ("p2", TankType.light)]
        else players).map Prod.fst) := by
  show (spawnTanks c _ _ 0 _).map Prod.fst = _
  rw [spawnTanks_keys]

lemma step_pre_tank (w : World) (s : String) (tank' : Tank)
    (hget' : (step w).2.getTank? s = some tank') : ∃ tank, w.getTank? s = some tank := by
  have hmem := getTank?_mem _ _ _ hget'
  have hkey : s ∈ (step w).2.keys := List.mem_map.mpr ⟨(s, tank'), hmem, rfl⟩
  rw [step_keys] at hkey
  exact getTank?_isSome_of_mem_keys w s hkey

/-- Record-update bookkeeping for the accepted-`shoot` world. -/
lemma keys_shootWorld (w : World) (s : String) (tk : Tank) (P : List Projectile) (n : ℕ) :
    ({ w.setTank s tk with projectiles := P, idCounter := n } : World).keys = w.keys :=
  keys_setTank w s tk

lemma getTank?_shootWorld (w : World) (s s' : String) (tk : Tank)
    (P : List Projectile) (n : ℕ) :
    ({ w.setTank s tk with projectiles := P, idCounter := n } : World).getTank? s' =
      (w.setTank s tk).getTank? s' := rfl

lemma reachable_constants (w : World) (h : Reachable w) : w.constants = CONSTANTS := by
  induction h with
  | create seed players hnd => rfl
  | tick w _ ih => rw [step_constants]; exact ih
  | startTurnLeft w s d b w' _ hacc ih =>
    rcases turnLeft_shape w s d b w' hacc with rfl | ⟨tank, _, rfl⟩
    · exact ih
    · exact ih
  | startTurnRight w s d b w' _ hacc ih =>
    rcases turnRight_shape w s d b w' hacc with rfl | ⟨tank, _, rfl⟩
    · exact ih
    · exact ih
  | startMoveForward w s b w' _ hacc ih =>
    rcases moveForward_shape w s b w' hacc with rfl | ⟨tank, _, rfl⟩
    · exact ih
    · exact ih
  | startMoveBackward w s b w' _ hacc ih =>
    rcases moveBackward_shape w s b w' hacc with rfl | ⟨tank, _, rfl⟩
    · exact ih
    · exact ih
  | startScan w s aDeg bDeg b w' _ hacc ih =>
    rcases scan_shape w s aDeg bDeg b w' hacc with rfl | ⟨tank, _, rfl⟩
    · exact ih
    · exact ih
  | fire w s b w' _ hacc ih =>
    rcases shoot_shape w s b w' hacc with rfl | ⟨tank, _, rfl⟩
    · exact ih
    · exact ih

lemma reachable_keys_nodup (w : World) (h : Reachable w) : w.keys.Nodup := by
  induction h with
  | create seed players hnd => rw [createWorld_keys]; exact hnd
  | tick w _ ih => rw [step_keys]; exact ih
  | startTurnLeft w s d b w' _ hacc ih =>
    rcases turnLeft_shape w s d b w' hacc with rfl | ⟨tank, _, rfl⟩
    · exact ih
    · rw [keys_setTank]; exact ih
  | startTurnRight w s d b w' _ hacc ih =>
    rcases turnRight_shape w s d b w' hacc with rfl | ⟨tank, _, rfl⟩
    · exact ih
    · rw [keys_setTank]; exact ih
  | startMoveForward w s b w' _ hacc ih =>
    rcases moveForward_shape w s b w' hacc with rfl | ⟨tank, _, rfl⟩
    · exact ih
    · rw [keys_setTank]; exact ih
  | startMoveBackward w s b w' _ hacc ih =>
    rcases moveBackward_shape w s b w' hacc with rfl | ⟨tank, _, rfl⟩
    · exact ih
    · rw [keys_setTank]; exact ih
  | startScan w s aDeg bDeg b w' _ hacc ih =>
    rcases scan_shape w s aDeg bDeg b w' hacc with rfl | ⟨tank, _, rfl⟩
    · exact ih
    · rw [keys_setTank]; exact ih
  | fire w s b w' _ hacc ih =>
    rcases shoot_shape w s b w' hacc with rfl | ⟨tank, _, rfl⟩
    · exact ih
    · rw [keys_shootWorld]; exact ih

lemma turnRate_pos (ty : TankType) : 0 < (CONSTANTS.tankStats ty).turnRate := by
  cases ty <;> norm_num [CONSTANTS]

lemma turnDuration_nonneg (w : World) (tank : Tank) (d : Option ℝ)
    (hconst : w.constants = CONSTANTS) : 0 ≤ turnDuration w.constants tank d := by
  rw [hconst]
  unfold turnDuration
  cases d with
  | none => norm_num [CONSTANTS]
  | some x =>
    dsimp only
    exact div_nonneg (abs_nonneg x) (le_of_lt (turnRate_pos tank.tankType))

lemma actionDuration_nonneg (w : World) (hconst : w.constants = CONSTANTS) :
    0 ≤ w.constants.ACTION_DURATION := by
  rw [hconst]
  norm_num [CONSTANTS]

lemma busyConsistent_setBegin (w : World) (s : String) (tank : Tank) (D : ℝ)
    (act : ActionDesc) (hD : 0 ≤ D) (hbc : busyConsistent w) :
    busyConsistent (w.setTank s (beginAction tank w.t D act)) := by
  intro s' tank' hget' hhp'
  by_cases hss : s' = s
  · subst hss
    rw [getTank?_setTank_self] at hget'
    cases hg : w.getTank? s' with
    | none => rw [hg] at hget'; cases hget'
    | some t0 =>
      rw [hg, Option.map_some'] at hget'
      injection hget' with h
      subst h
      refine ⟨fun _ => ?_, fun hna => ?_⟩
      · show w.t ≤ w.t + D
        linarith
      · exact absurd hna (by exact fun hc => Option.noConfusion hc)
  · rw [getTank?_setTank_ne w s s' _ hss] at hget'
    exact hbc s' tank' hget' hhp'

lemma busyConsistent_shootWorld (w : World) (s : String) (tank : Tank)
    (P : List Projectile) (n : ℕ) (hget : w.getTank? s = some tank)
    (hbc : busyConsistent w) :
    busyConsistent ({ w.setTank s { tank with activeProjectileId := some w.idCounter } with
      projectiles := P, idCounter := n } : World) := by
  intro s' tank' hget' hhp'
  rw [getTank?_shootWorld] at hget'
  by_cases hss : s' = s
  · subst hss
    rw [getTank?_setTank_self, hget, Option.map_some'] at hget'
    injection hget' with h
    subst h
    exact hbc s' tank hget (by exact hhp')
  · rw [getTank?_setTank_ne w s s' _ hss] at hget'
    exact hbc s' tank' hget' hhp'

lemma clampToArena_inBounds (tank : Tank) (c : Constants)
    (hW : 2 * c.TANK_RADIUS ≤ c.ARENA_WIDTH) (hH : 2 * c.TANK_RADIUS ≤ c.ARENA_HEIGHT) :
    inBounds c (clampToArena tank c) := by
  unfold clampToArena inBounds
  dsimp only
  refine ⟨?_, ?_, ?_, ?_⟩ <;> (split_ifs <;> linarith)

lemma tickEffect_inBounds (c : Constants) (tank : Tank) (act : ActionDesc) (dt : ℝ)
    (hW : 2 * c.TANK_RADIUS ≤ c.ARENA_WIDTH) (hH : 2 * c.TANK_RADIUS ≤ c.ARENA_HEIGHT)
    (hin : inBounds c tank) : inBounds c (tickEffect c tank act dt) := by
  cases act with
  | turnLeft => exact hin
  | turnRight => exact hin
  | moveForward => exact clampToArena_inBounds _ c hW hH
  | moveBackward => exact clampToArena_inBounds _ c hW hH
  | scan a b => exact hin

lemma processOwn_inBounds (c : Constants) (tn dt : ℝ) (tank : Tank)
    (hW : 2 * c.TANK_RADIUS ≤ c.ARENA_WIDTH) (hH : 2 * c.TANK_RADIUS ≤ c.ARENA_HEIGHT)
    (hin : inBounds c tank) : inBounds c (processOwn c tn dt tank).1 := by
  unfold processOwn
  by_cases hhp : tank.hp ≤ 0
  · rw [if_pos hhp]
    exact hin
  · rw [if_neg hhp]
    rcases hact : tank.activeAction with _ | act
    · exact hin
    · dsimp only
      by_cases hdone : tn + dt ≥ (tickEffect c tank act dt).busyUntil - EPSILON
      · rw [if_pos hdone]
        exact tickEffect_inBounds c tank act dt hW hH hin
      · rw [if_neg hdone]
        exact tickEffect_inBounds c tank act dt hW hH hin

lemma tanksInArena_setBegin (w : World) (s : String) (tank : Tank) (D : ℝ)
    (act : ActionDesc) (hget : w.getTank? s = some tank)
    (hta : tanksInArena w) : tanksInArena (w.setTank s (beginAction tank w.t D act)) := by
  intro s' tank' hget' hhp'
  by_cases hss : s' = s
  · subst hss
    rw [getTank?_setTank_self, hget, Option.map_some'] at hget'
    injection hget' with h
    subst h
    exact hta s' tank hget (by exact hhp')
  · rw [getTank?_setTank_ne w s s' _ hss] at hget'
    exact hta s' tank' hget' hhp'

lemma tanksInArena_shootWorld (w : World) (s : String) (tank : Tank)
    (P : List Projectile) (n : ℕ) (hget : w.getTank? s = some tank)
    (hta : tanksInArena w) :
    tanksInArena ({ w.setTank s { tank with activeProjectileId := some w.idCounter } with
      projectiles := P, idCounter := n } : World) := by
  intro s' tank' hget' hhp'
  rw [getTank?_shootWorld] at hget'
  by_cases hss : s' = s
  · subst hss
    rw [getTank?_setTank_self, hget, Option.map_some'] at hget'
    injection hget' with h
    subst h
    exact hta s' tank hget (by exact hhp')
  · rw [getTank?_setTank_ne w s s' _ hss] at hget'
    exact hta s' tank' hget' hhp'

/-! ## Claim C6 — invariant I1 (corrected) -/

/-- C6 (amended): in every reachable world — fresh, after any tick, after
any accepted or rejected action start or shot — every alive tank
satisfies: if an action is active then `t ≤ busyUntil`, and if no action
is active then `busyUntil ≤ t + ε`.  The spec's literal iff direction
"`busyUntil ≥ t` implies active" is false (see the counterexample): a
fresh tank has `busyUntil = t = 0` with no active action. -/
theorem busy_iff_active_amended (w : World) (h : Reachable w) : busyConsistent w := by
  induction h with
  | create seed players hnd =>
    intro s tank hget hhp
    have hmem := getTank?_mem _ _ _ hget
    obtain ⟨hb, ha, _, _⟩ := spawnTanks_tank_spec CONSTANTS _ _ _ _ (s, tank) hmem
    refine ⟨fun hna => absurd ha hna, fun _ => ?_⟩
    rw [hb]
    show (0 : ℝ) ≤ 0 + EPSILON
    norm_num [EPSILON]
  | tick w hw ih =>
    have hnd := reachable_keys_nodup w hw
    have hconst := reachable_constants w hw
    intro s tank' hget' hhp'
    obtain ⟨tank, hget⟩ := step_pre_tank w s tank' hget'
    obtain ⟨t'', hg'', _, _, _, _, _, hbu'', haa'', hhp'', _, _, _⟩ :=
      step_tank w s tank hnd hget
    rw [hget'] at hg''
    injection hg'' with he
    subst he
    have hdmg : (0 : ℝ) ≤ w.constants.PROJECTILE_DAMAGE := by
      rw [hconst]
      norm_num [CONSTANTS]
    have halive : 0 < tank.hp := by
      have h1 := hhp'' hdmg
      have h2 := (processOwn_fields w.constants w.t (stepDt w) tank).2.1
      rw [h2] at h1
      linarith
    have hbc := ih s tank hget halive
    have heps0 : (0 : ℝ) ≤ EPSILON := by norm_num [EPSILON]
    rcases hact : tank.activeAction with _ | act
    · have hpo := processOwn_inactive w.constants w.t (stepDt w) tank hact
      constructor
      · intro hna
        rw [haa'', hpo] at hna
        exact absurd hact hna
      · intro _
        rw [hbu'', hpo]
        show tank.busyUntil ≤ (step w).2.t + EPSILON
        rw [step_t]
        have hdt0 : 0 < stepDt w := by
          rw [show stepDt w = 1 / w.constants.TICK_RATE from rfl, hconst]
          norm_num [CONSTANTS]
        have := hbc.2 hact
        linarith
    · have hpo := processOwn_active w.constants w.t (stepDt w) tank act halive hact
      by_cases hdone : w.t + stepDt w ≥ tank.busyUntil - EPSILON
      · rw [if_pos hdone] at hpo
        constructor
        · intro hna
          rw [haa'', hpo] at hna
          exact absurd rfl hna
        · intro _
          rw [hbu'', hpo]
          show (tickEffect w.constants tank act (stepDt w)).busyUntil ≤ (step w).2.t + EPSILON
          rw [(tickEffect_fields _ _ _ _).2.2.2.1, step_t]
          linarith
      · rw [if_neg hdone] at hpo
        push_neg at hdone
        constructor
        · intro _
          rw [hbu'', hpo]
          show (step w).2.t ≤ (tickEffect w.constants tank act (stepDt w)).busyUntil
          rw [(tickEffect_fields _ _ _ _).2.2.2.1, step_t]
          linarith
        · intro hna
          rw [haa'', hpo] at hna
          have hna' : (tickEffect w.constants tank act (stepDt w)).activeAction = none := hna
          rw [(tickEffect_fields _ _ _ _).2.2.2.2.2.1, hact] at hna'
          cases hna'
  | startTurnLeft w s d b w' hw hacc ih =>
    have hconst := reachable_constants w hw
    rcases turnLeft_shape w s d b w' hacc with rfl | ⟨tank, hg, rfl⟩
    · exact ih
    · exact busyConsistent_setBegin w s tank _ _ (turnDuration_nonneg w tank d hconst) ih
  | startTurnRight w s d b w' hw hacc ih =>
    have hconst := reachable_constants w hw
    rcases turnRight_shape w s d b w' hacc with rfl | ⟨tank, hg, rfl⟩
    · exact ih
    · exact busyConsistent_setBegin w s tank _ _ (turnDuration_nonneg w tank d hconst) ih
  | startMoveForward w s b w' hw hacc ih =>
    have hconst := reachable_constants w hw
    rcases moveForward_shape w s b w' hacc with rfl | ⟨tank, hg, rfl⟩
    · exact ih
    · exact busyConsistent_setBegin w s tank _ _ (actionDuration_nonneg w hconst) ih
  | startMoveBackward w s b w' hw hacc ih =>
    have hconst := reachable_constants w hw
    rcases moveBackward_shape w s b w' hacc with rfl | ⟨tank, hg, rfl⟩
    · exact ih
    · exact busyConsistent_setBegin w s tank _ _ (actionDuration_nonneg w hconst) ih
  | startScan w s aDeg bDeg b w' hw hacc ih =>
    have hconst := reachable_constants w hw
    rcases scan_shape w s aDeg bDeg b w' hacc with rfl | ⟨tank, hg, rfl⟩
    · exact ih
    · exact busyConsistent_setBegin w s tank _ _ (actionDuration_nonneg w hconst) ih
  | fire w s b w' hw hacc ih =>
    rcases shoot_shape w s b w' hacc with rfl | ⟨tank, hg, rfl⟩
    · exact ih
    · exact busyConsistent_shootWorld w s tank _ _ hg ih

theorem busy_iff_active_amended_witness :
    busyConsistent (createWorld 2 CONSTANTS [("p1", TankType.light), ("p2", TankType.heavy)]) :=
  busy_iff_active_amended _ (Reachable.create 2 _ (by simp))

/-- The spec's literal I1 fails on a freshly created world: the single
tank is alive with `busyUntil = 0 ≥ t = 0` but `activeAction = null`. -/
theorem busy_iff_active_counterexample :
    Reachable (createWorld 1 CONSTANTS [("p1", TankType.light)]) ∧
    ¬claimedI1 (createWorld 1 CONSTANTS [("p1", TankType.light)]) := by
  constructor
  · exact Reachable.create 1 [("p1", TankType.light)] (by simp)
  · intro hcl
    obtain ⟨tank, hg⟩ : ∃ tank,
        (createWorld 1 CONSTANTS [("p1", TankType.light)]).getTank? "p1" = some tank :=
      ⟨_, rfl⟩
    have hmem := getTank?_mem _ _ _ hg
    obtain ⟨hb, ha, hhp, _⟩ := spawnTanks_tank_spec CONSTANTS _ _ _ _ ("p1", tank) hmem
    have hp_pos : 0 < tank.hp := by
      rw [hhp]
      cases htt : tank.tankType <;> norm_num [CONSTANTS]
    have hiff := hcl "p1" tank hg hp_pos
    have hbusy_ge : tank.busyUntil ≥ (createWorld 1 CONSTANTS [("p1", TankType.light)]).t := by
      rw [hb]
      exact le_refl 0
    exact (hiff.mp hbusy_ge) ha

/-! ## Claim C8 — arena containment -/

/-- C8: in every reachable world — after `createWorld`, after every tick,
and under any interleaving of accepted action starts and shots — every
alive tank satisfies `R ≤ x ≤ W − R` and `R ≤ y ≤ H − R`: the spawn ring
lies inside the inset arena and the per-tick move is clamped to it. -/
theorem arena_containment (w : World) (h : Reachable w) : tanksInArena w := by
  induction h with
  | create seed players hnd =>
    intro s tank hget hhp
    have hmem := getTank?_mem _ _ _ hget
    obtain ⟨_, _, _, angle, hx, hy⟩ := spawnTanks_tank_spec CONSTANTS _ _ _ _ (s, tank) hmem
    show inBounds CONSTANTS tank
    unfold inBounds
    rw [hx, hy]
    have hW : CONSTANTS.ARENA_WIDTH = 1200 := rfl
    have hH : CONSTANTS.ARENA_HEIGHT = 800 := rfl
    have hR : CONSTANTS.TANK_RADIUS = 18 := rfl
    rw [hW, hH, hR]
    have hmin : min ((1200 : ℝ) / 2) ((800 : ℝ) / 2) = 400 := by norm_num
    rw [hmin]
    have h220 : (400 : ℝ) * 0.55 = 220 := by norm_num
    rw [h220]
    have hc1 := Real.neg_one_le_cos angle
    have hc2 := Real.cos_le_one angle
    have hs1 := Real.neg_one_le_sin angle
    have hs2 := Real.sin_le_one angle
    refine ⟨?_, ?_, ?_, ?_⟩ <;> nlinarith
  | tick w hw ih =>
    have hnd := reachable_keys_nodup w hw
    have hconst := reachable_constants w hw
    have hW : 2 * w.constants.TANK_RADIUS ≤ w.constants.ARENA_WIDTH := by
      rw [hconst]
      norm_num [CONSTANTS]
    have hH : 2 * w.constants.TANK_RADIUS ≤ w.constants.ARENA_HEIGHT := by
      rw [hconst]
      norm_num [CONSTANTS]
    intro s tank' hget' hhp'
    obtain ⟨tank, hget⟩ := step_pre_tank w s tank' hget'
    obtain ⟨t'', hg'', _, hx'', hy'', _, _, _, _, hhp'', _, _, _⟩ :=
      step_tank w s tank hnd hget
    rw [hget'] at hg''
    injection hg'' with he
    subst he
    have hdmg : (0 : ℝ) ≤ w.constants.PROJECTILE_DAMAGE := by
      rw [hconst]
      norm_num [CONSTANTS]
    have halive : 0 < tank.hp := by
      have h1 := hhp'' hdmg
      have h2 := (processOwn_fields w.constants w.t (stepDt w) tank).2.1
      rw [h2] at h1
      linarith
    have hin := ih s tank hget halive
    have hpo := processOwn_inBounds w.constants w.t (stepDt w) tank hW hH hin
    show inBounds (step w).2.constants tank'
    rw [step_constants]
    unfold inBounds at hpo ⊢
    rw [hx'', hy'']
    exact hpo
  | startTurnLeft w s d b w' hw hacc ih =>
    rcases turnLeft_shape w s d b w' hacc with rfl | ⟨tank, hg, rfl⟩
    · exact ih
    · exact tanksInArena_setBegin w s tank _ _ hg ih
  | startTurnRight w s d b w' hw hacc ih =>
    rcases turnRight_shape w s d b w' hacc with rfl | ⟨tank, hg, rfl⟩
    · exact ih
    · exact tanksInArena_setBegin w s tank _ _ hg ih
  | startMoveForward w s b w' hw hacc ih =>
    rcases moveForward_shape w s b w' hacc with rfl | ⟨tank, hg, rfl⟩
    · exact ih
    · exact tanksInArena_setBegin w s tank _ _ hg ih
  | startMoveBackward w s b w' hw hacc ih =>
    rcases moveBackward_shape w s b w' hacc with rfl | ⟨tank, hg, rfl⟩
    · exact ih
    · exact tanksInArena_setBegin w s tank _ _ hg ih
  | startScan w s aDeg bDeg b w' hw hacc ih =>
    rcases scan_shape w s aDeg bDeg b w' hacc with rfl | ⟨tank, hg, rfl⟩
    · exact ih
    · exact tanksInArena_setBegin w s tank _ _ hg ih
  | fire w s b w' hw hacc ih =>
    rcases shoot_shape w s b w' hacc with rfl | ⟨tank, hg, rfl⟩
    · exact ih
    · exact tanksInArena_shootWorld w s tank _ _ hg ih

theorem arena_containment_witness :
    tanksInArena (createWorld 3 CONSTANTS [("p1", TankType.heavy)]) :=
  arena_containment _ (Reachable.create 3 _ (by simp))

end

end Tanks
